import Mathlib

/-!
# Verification of the delivery task-creator library

A shallow embedding of the `DeliveryTaskCreator` class from
`src/delivery.ts` (the current revision) and the earlier revision of the
same class, together with models of the serialization pipeline the class
uses (`JSON.stringify` followed by base64 encoding of the UTF-8 bytes)
and of the corresponding decoding pipeline used to state round-trip
properties.

JavaScript numbers are modelled as integers (`Int`); every numeric field
of the payload variants carries timestamps or coordinates that the
library never manipulates arithmetically.
-/

/-! ## JSON values -/

/-- A JSON value.  Objects keep their key/value pairs in insertion order,
mirroring the property order of the JavaScript objects being serialized. -/
inductive Json where
  | str (s : String)
  | num (i : Int)
  | bool (b : Bool)
  | null
  | arr (items : List Json)
  | obj (members : List (String × Json))

/-! ## Characters used by the JSON grammar -/

def quoteChar : Char := Char.ofNat 34

def bslashChar : Char := Char.ofNat 92

def lbrackChar : Char := Char.ofNat 91

def rbrackChar : Char := Char.ofNat 93

def lbraceChar : Char := Char.ofNat 123

def rbraceChar : Char := Char.ofNat 125

def commaChar : Char := Char.ofNat 44

def colonChar : Char := Char.ofNat 58

def minusChar : Char := Char.ofNat 45

/-- Lower-case hexadecimal digit, as emitted by control-character escapes. -/
def hexChar (n : Nat) : Char :=
  if n < 10 then Char.ofNat (48 + n) else Char.ofNat (87 + n)

def isDigitChar (c : Char) : Bool :=
  48 ≤ c.toNat && c.toNat ≤ 57

/-! ## Serialization (model of JavaScript JSON.stringify) -/

/-- Escape one character, as `JSON.stringify` does: quote and backslash get
two-character escapes, the five named control characters get their short
escapes, remaining control characters get a `\u00XX` escape with lower-case
hex digits, everything else is emitted literally. -/
def escChar (c : Char) : List Char :=
  if c = quoteChar then [bslashChar, quoteChar]
  else if c = bslashChar then [bslashChar, bslashChar]
  else if c.toNat = 8 then [bslashChar, 'b']
  else if c.toNat = 9 then [bslashChar, 't']
  else if c.toNat = 10 then [bslashChar, 'n']
  else if c.toNat = 12 then [bslashChar, 'f']
  else if c.toNat = 13 then [bslashChar, 'r']
  else if c.toNat < 32 then
    [bslashChar, 'u', '0', '0', hexChar (c.toNat / 16), hexChar (c.toNat % 16)]
  else [c]

def escChars : List Char → List Char
  | [] => []
  | c :: cs => escChar c ++ escChars cs

/-- Decimal digits of a natural number, most significant first. -/
def natChars (n : Nat) : List Char :=
  if h : n < 10 then [Char.ofNat (48 + n)]
  else natChars (n / 10) ++ [Char.ofNat (48 + n % 10)]
termination_by n
decreasing_by
  exact Nat.div_lt_self (Nat.pos_of_ne_zero (by omega)) (by omega)

/-- Decimal rendering of an integer (`JSON.stringify` on an integral number). -/
def intChars (i : Int) : List Char :=
  if i < 0 then minusChar :: natChars i.natAbs else natChars i.natAbs

mutual

/-- Characters of the JSON serialization of a value, exactly as
`JSON.stringify` (no added whitespace) produces them. -/
def strJson : Json → List Char
  | .str s => quoteChar :: (escChars s.data ++ [quoteChar])
  | .num i => intChars i
  | .bool true => ['t', 'r', 'u', 'e']
  | .bool false => ['f', 'a', 'l', 's', 'e']
  | .null => ['n', 'u', 'l', 'l']
  | .arr [] => [lbrackChar, rbrackChar]
  | .arr (x :: xs) => lbrackChar :: (strItems x xs ++ [rbrackChar])
  | .obj [] => [lbraceChar, rbraceChar]
  | .obj (kv :: kvs) => lbraceChar :: (strMembers kv kvs ++ [rbraceChar])
termination_by j => sizeOf j
decreasing_by
  all_goals simp_wf <;> omega

/-- Comma-separated serializations of a non-empty item list. -/
def strItems : Json → List Json → List Char
  | x, [] => strJson x
  | x, y :: ys => strJson x ++ commaChar :: strItems y ys
termination_by x xs => sizeOf x + sizeOf xs
decreasing_by
  all_goals simp_wf <;> omega

/-- Comma-separated serializations of a non-empty member list; each member
is a quoted, escaped key, a colon and the serialized value. -/
def strMembers : String × Json → List (String × Json) → List Char
  | (k, v), [] =>
    quoteChar :: (escChars k.data ++ [quoteChar]) ++ colonChar :: strJson v
  | (k, v), m :: ms =>
    (quoteChar :: (escChars k.data ++ [quoteChar]) ++ colonChar :: strJson v) ++
      commaChar :: strMembers m ms
termination_by kv ms => sizeOf kv + sizeOf ms
decreasing_by
  all_goals simp_wf <;> omega

end

/-- JSON serialization of a value as a string. -/
def jsonStringify (j : Json) : String :=
  String.mk (strJson j)

/-! ## JSON parsing (model of the decode direction) -/

def hexVal (c : Char) : Option Nat :=
  if 48 ≤ c.toNat ∧ c.toNat ≤ 57 then some (c.toNat - 48)
  else if 97 ≤ c.toNat ∧ c.toNat ≤ 102 then some (c.toNat - 87)
  else if 65 ≤ c.toNat ∧ c.toNat ≤ 70 then some (c.toNat - 55)
  else none

def consFst (c : Char) : Option (List Char × List Char) → Option (List Char × List Char)
  | some (s, r) => some (c :: s, r)
  | none => none

/-- Parse the body of a JSON string literal (after the opening quote),
returning the decoded characters and the remaining input. -/
def pStrBody : List Char → Option (List Char × List Char)
  | [] => none
  | c :: cs =>
    if c = quoteChar then some ([], cs)
    else if c = bslashChar then
      match cs with
      | [] => none
      | e :: cs1 =>
        if e = quoteChar then consFst quoteChar (pStrBody cs1)
        else if e = bslashChar then consFst bslashChar (pStrBody cs1)
        else if e = 'b' then consFst (Char.ofNat 8) (pStrBody cs1)
        else if e = 't' then consFst (Char.ofNat 9) (pStrBody cs1)
        else if e = 'n' then consFst (Char.ofNat 10) (pStrBody cs1)
        else if e = 'f' then consFst (Char.ofNat 12) (pStrBody cs1)
        else if e = 'r' then consFst (Char.ofNat 13) (pStrBody cs1)
        else if e = 'u' then
          match cs1 with
          | h1 :: h2 :: h3 :: h4 :: cs2 =>
            match hexVal h1, hexVal h2, hexVal h3, hexVal h4 with
            | some v1, some v2, some v3, some v4 =>
              if Nat.isValidChar (((v1 * 16 + v2) * 16 + v3) * 16 + v4) then
                consFst (Char.ofNat (((v1 * 16 + v2) * 16 + v3) * 16 + v4)) (pStrBody cs2)
              else none
            | _, _, _, _ => none
          | _ => none
        else none
    else consFst c (pStrBody cs)

/-- Greedily consume decimal digits, accumulating their value. -/
def pDigits : Nat → List Char → Nat × List Char
  | acc, [] => (acc, [])
  | acc, c :: cs =>
    if isDigitChar c then pDigits (acc * 10 + (c.toNat - 48)) cs else (acc, c :: cs)

/-- Parse a natural number (at least one digit required). -/
def pNat : List Char → Option (Nat × List Char)
  | [] => none
  | c :: cs => if isDigitChar c then some (pDigits 0 (c :: cs)) else none

/-- Wrap a parsed string body as a JSON string value. -/
def pStrTail : Option (List Char × List Char) → Option (Json × List Char)
  | some (s, rest) => some (.str (String.mk s), rest)
  | none => none

/-- Wrap a parsed natural number as a JSON number, negated when a minus
sign preceded it. -/
def pNumTail (neg : Bool) : Option (Nat × List Char) → Option (Json × List Char)
  | some (n, rest) => some (.num (if neg then -(n : Int) else (n : Int)), rest)
  | none => none

/-- Expect a fixed keyword tail and produce the given value. -/
def pWord : List Char → Json → List Char → Option (Json × List Char)
  | [], j, cs => some (j, cs)
  | w :: ws, j, c :: cs => if c = w then pWord ws j cs else none
  | _ :: _, _, [] => none

/-- Wrap parsed array items as a JSON array. -/
def pArrRest : Option (List Json × List Char) → Option (Json × List Char)
  | some (vs, rest) => some (.arr vs, rest)
  | none => none

/-- After an opening bracket: empty array or the item list. -/
def pArrTail (pi : List Char → Option (List Json × List Char)) :
    List Char → Option (Json × List Char)
  | [] => none
  | d :: cs1 =>
    if d = rbrackChar then some (.arr [], cs1) else pArrRest (pi (d :: cs1))

/-- Wrap parsed object members as a JSON object. -/
def pObjRest : Option (List (String × Json) × List Char) → Option (Json × List Char)
  | some (ms, rest) => some (.obj ms, rest)
  | none => none

/-- After an opening brace: empty object or the member list. -/
def pObjTail (pm : List Char → Option (List (String × Json) × List Char)) :
    List Char → Option (Json × List Char)
  | [] => none
  | d :: cs1 =>
    if d = rbraceChar then some (.obj [], cs1) else pObjRest (pm (d :: cs1))

/-- Prepend a parsed item to the remaining parsed items. -/
def pItemsRest (v : Json) : Option (List Json × List Char) → Option (List Json × List Char)
  | some (vs, r2) => some (v :: vs, r2)
  | none => none

/-- After one parsed item: a closing bracket ends the array, a comma
continues it.  `pi` parses the remaining items. -/
def pItemsStep (pi : List Char → Option (List Json × List Char)) :
    Option (Json × List Char) → Option (List Json × List Char)
  | some (v, x :: r1) =>
    if x = rbrackChar then some ([v], r1)
    else if x = commaChar then pItemsRest v (pi r1)
    else none
  | _ => none

/-- Prepend a parsed member to the remaining parsed members. -/
def pMembersRest (k : String) (v : Json) :
    Option (List (String × Json) × List Char) → Option (List (String × Json) × List Char)
  | some (ms, r2) => some ((k, v) :: ms, r2)
  | none => none

/-- After one parsed member value: a closing brace ends the object, a
comma continues it.  `pm` parses the remaining members. -/
def pMemberVal (k : List Char)
    (pm : List Char → Option (List (String × Json) × List Char)) :
    Option (Json × List Char) → Option (List (String × Json) × List Char)
  | some (v, y :: r1) =>
    if y = rbraceChar then some ([(String.mk k, v)], r1)
    else if y = commaChar then pMembersRest (String.mk k) v (pm r1)
    else none
  | _ => none

/-- After a parsed member key: expect a colon, then the member value.
`pv` parses one value, `pm` the remaining members. -/
def pMemberKey (pv : List Char → Option (Json × List Char))
    (pm : List Char → Option (List (String × Json) × List Char)) :
    Option (List Char × List Char) → Option (List (String × Json) × List Char)
  | some (k, x :: vr) =>
    if x = colonChar then pMemberVal k pm (pv vr) else none
  | _ => none

mutual

/-- Parse one JSON value.  `fuel` bounds the nesting the parser will
descend through; it decreases at every recursive step. -/
def pVal : Nat → List Char → Option (Json × List Char)
  | 0, _ => none
  | _ + 1, [] => none
  | fuel + 1, c :: cs =>
    if c = quoteChar then pStrTail (pStrBody cs)
    else if c = minusChar then pNumTail true (pNat cs)
    else if isDigitChar c then pNumTail false (pNat (c :: cs))
    else if c = 't' then pWord ['r', 'u', 'e'] (.bool true) cs
    else if c = 'f' then pWord ['a', 'l', 's', 'e'] (.bool false) cs
    else if c = 'n' then pWord ['u', 'l', 'l'] .null cs
    else if c = lbrackChar then pArrTail (pItems fuel) cs
    else if c = lbraceChar then pObjTail (pMembers fuel) cs
    else none

/-- Parse the items of a non-empty array, consuming the closing bracket. -/
def pItems : Nat → List Char → Option (List Json × List Char)
  | 0, _ => none
  | fuel + 1, cs => pItemsStep (pItems fuel) (pVal fuel cs)

/-- Parse the members of a non-empty object, consuming the closing brace. -/
def pMembers : Nat → List Char → Option (List (String × Json) × List Char)
  | 0, _ => none
  | fuel + 1, [] => none
  | fuel + 1, q :: cs1 =>
    if q = quoteChar then pMemberKey (pVal fuel) (pMembers fuel) (pStrBody cs1)
    else none

end

/-- A character list that does not begin with a decimal digit; the
greedy number parser stops exactly at such a suffix. -/
def nonDigitStart : List Char → Prop
  | [] => True
  | c :: _ => isDigitChar c = false

mutual

/-- Fuel bound for parsing the serialization of a value. -/
def jsize : Json → Nat
  | .str _ => 1
  | .num _ => 1
  | .bool _ => 1
  | .null => 1
  | .arr [] => 1
  | .arr (x :: xs) => 1 + isize x xs
  | .obj [] => 1
  | .obj (kv :: kvs) => 1 + msize kv kvs
termination_by j => sizeOf j
decreasing_by
  all_goals simp_wf <;> omega

/-- Fuel bound for parsing the serialized items of a non-empty array. -/
def isize : Json → List Json → Nat
  | x, [] => 1 + jsize x
  | x, y :: ys => 1 + jsize x + isize y ys
termination_by x xs => sizeOf x + sizeOf xs
decreasing_by
  all_goals simp_wf <;> omega

/-- Fuel bound for parsing the serialized members of a non-empty object. -/
def msize : String × Json → List (String × Json) → Nat
  | (_, v), [] => 1 + jsize v
  | (_, v), m :: ms => 1 + jsize v + msize m ms
termination_by kv ms => sizeOf kv + sizeOf ms
decreasing_by
  all_goals simp_wf <;> omega

end

/-- Parse a complete JSON document from a character list. -/
def jsonParseChars (cs : List Char) : Option Json :=
  match pVal cs.length cs with
  | some (j, []) => some j
  | _ => none

/-- Parse a complete JSON document from a string. -/
def jsonParse (s : String) : Option Json :=
  jsonParseChars s.data

/-! ## UTF-8 (model of Buffer.from(string)) -/

/-- UTF-8 bytes of one Unicode scalar value. -/
def utf8Char (c : Char) : List Nat :=
  let n := c.toNat
  if n < 0x80 then [n]
  else if n < 0x800 then [0xC0 + n / 64, 0x80 + n % 64]
  else if n < 0x10000 then
    [0xE0 + n / 4096, 0x80 + (n / 64) % 64, 0x80 + n % 64]
  else
    [0xF0 + n / 262144, 0x80 + (n / 4096) % 64, 0x80 + (n / 64) % 64, 0x80 + n % 64]

/-- UTF-8 bytes of a character sequence. -/
def utf8Encode : List Char → List Nat
  | [] => []
  | c :: cs => utf8Char c ++ utf8Encode cs

/-- Prepend the decoded scalar value to the decoded remainder. -/
def utf8DecodeRest (n : Nat) : Option (List Char) → Option (List Char)
  | some cs => some (Char.ofNat n :: cs)
  | none => none

/-- Continue a two-byte sequence whose first byte was `b`; `k` decodes the
bytes after it. -/
def utf8Decode2 (k : List Nat → Option (List Char)) (b : Nat) :
    List Nat → Option (List Char)
  | b2 :: bs1 =>
    if 0x80 ≤ b2 ∧ b2 < 0xC0 then
      utf8DecodeRest ((b - 0xC0) * 64 + (b2 - 0x80)) (k bs1)
    else none
  | [] => none

/-- Continue a three-byte sequence whose first byte was `b`, rejecting
overlong and surrogate encodings. -/
def utf8Decode3 (k : List Nat → Option (List Char)) (b : Nat) :
    List Nat → Option (List Char)
  | b2 :: b3 :: bs1 =>
    if 0x80 ≤ b2 ∧ b2 < 0xC0 ∧ 0x80 ≤ b3 ∧ b3 < 0xC0 then
      if 0x800 ≤ (b - 0xE0) * 4096 + (b2 - 0x80) * 64 + (b3 - 0x80) ∧
          ((b - 0xE0) * 4096 + (b2 - 0x80) * 64 + (b3 - 0x80) < 0xD800 ∨
           0xDFFF < (b - 0xE0) * 4096 + (b2 - 0x80) * 64 + (b3 - 0x80)) then
        utf8DecodeRest ((b - 0xE0) * 4096 + (b2 - 0x80) * 64 + (b3 - 0x80)) (k bs1)
      else none
    else none
  | _ => none

/-- Continue a four-byte sequence whose first byte was `b`, rejecting
overlong and out-of-range encodings. -/
def utf8Decode4 (k : List Nat → Option (List Char)) (b : Nat) :
    List Nat → Option (List Char)
  | b2 :: b3 :: b4 :: bs1 =>
    if 0x80 ≤ b2 ∧ b2 < 0xC0 ∧ 0x80 ≤ b3 ∧ b3 < 0xC0 ∧ 0x80 ≤ b4 ∧ b4 < 0xC0 then
      if 0x10000 ≤ (b - 0xF0) * 262144 + (b2 - 0x80) * 4096 + (b3 - 0x80) * 64 +
            (b4 - 0x80) ∧
          (b - 0xF0) * 262144 + (b2 - 0x80) * 4096 + (b3 - 0x80) * 64 + (b4 - 0x80) <
            0x110000 then
        utf8DecodeRest
          ((b - 0xF0) * 262144 + (b2 - 0x80) * 4096 + (b3 - 0x80) * 64 + (b4 - 0x80))
          (k bs1)
      else none
    else none
  | _ => none

/-- Decode a UTF-8 byte sequence, rejecting truncated, overlong, stray,
surrogate and out-of-range encodings.  The fuel only needs to cover the
number of encoded characters; each step consumes at least one byte. -/
def utf8DecodeAux : Nat → List Nat → Option (List Char)
  | _, [] => some []
  | 0, _ :: _ => none
  | fuel + 1, b :: bs =>
    if b < 0x80 then utf8DecodeRest b (utf8DecodeAux fuel bs)
    else if b < 0xC2 then none
    else if b < 0xE0 then utf8Decode2 (utf8DecodeAux fuel) b bs
    else if b < 0xF0 then utf8Decode3 (utf8DecodeAux fuel) b bs
    else if b < 0xF5 then utf8Decode4 (utf8DecodeAux fuel) b bs
    else none

/-- Decode a UTF-8 byte sequence. -/
def utf8Decode (bs : List Nat) : Option (List Char) :=
  utf8DecodeAux bs.length bs

/-! ## Base64 (model of Buffer.prototype.toString with base64 encoding) -/

/-- Character of one six-bit group, standard base64 alphabet. -/
def b64Char (n : Nat) : Char :=
  if n < 26 then Char.ofNat (65 + n)
  else if n < 52 then Char.ofNat (97 + (n - 26))
  else if n < 62 then Char.ofNat (48 + (n - 52))
  else if n = 62 then Char.ofNat 43
  else Char.ofNat 47

def padChar : Char := Char.ofNat 61

/-- Base64 encoding of a byte list, three bytes per four characters, with
trailing padding. -/
def b64Encode : List Nat → List Char
  | [] => []
  | [a] => [b64Char (a / 4), b64Char (a % 4 * 16), padChar, padChar]
  | [a, b] => [b64Char (a / 4), b64Char (a % 4 * 16 + b / 16), b64Char (b % 16 * 4), padChar]
  | a :: b :: c :: rest =>
    b64Char (a / 4) :: b64Char (a % 4 * 16 + b / 16) :: b64Char (b % 16 * 4 + c / 64) ::
      b64Char (c % 64) :: b64Encode rest

/-- Value of one base64 alphabet character. -/
def b64Val (c : Char) : Option Nat :=
  if 65 ≤ c.toNat ∧ c.toNat ≤ 90 then some (c.toNat - 65)
  else if 97 ≤ c.toNat ∧ c.toNat ≤ 122 then some (c.toNat - 97 + 26)
  else if 48 ≤ c.toNat ∧ c.toNat ≤ 57 then some (c.toNat - 48 + 52)
  else if c.toNat = 43 then some 62
  else if c.toNat = 47 then some 63
  else none

/-- Base64 decoding, accepting only a well-formed padded encoding. -/
def b64Decode : List Char → Option (List Nat)
  | [] => some []
  | c1 :: c2 :: c3 :: c4 :: rest =>
    match b64Val c1, b64Val c2 with
    | some s1, some s2 =>
      if c3 = padChar then
        if c4 = padChar ∧ rest = [] then some [s1 * 4 + s2 / 16] else none
      else
        match b64Val c3 with
        | some s3 =>
          if c4 = padChar then
            if rest = [] then some [s1 * 4 + s2 / 16, s2 % 16 * 16 + s3 / 4] else none
          else
            match b64Val c4 with
            | some s4 =>
              match b64Decode rest with
              | some bs =>
                some ((s1 * 4 + s2 / 16) :: (s2 % 16 * 16 + s3 / 4) ::
                  (s3 % 4 * 64 + s4) :: bs)
              | none => none
            | none => none
        | none => none
    | _, _ => none
  | _ => none

/-- The serialization the task creator applies to every payload before
enqueueing: JSON serialization, UTF-8 bytes, base64 characters
(the model of Buffer.from(JSON.stringify(payload)).toString with
base64 encoding). -/
def encodeBody (j : Json) : String :=
  String.mk (b64Encode (utf8Encode (strJson j)))

/-- The decode direction used to state round-trip properties: base64
decoding, UTF-8 decoding, JSON parsing. -/
def decodeBody (body : String) : Option Json :=
  match b64Decode body.data with
  | some bytes =>
    match utf8Decode bytes with
    | some cs => jsonParseChars cs
    | none => none
  | none => none

/-! ## Payload variants (the exported interfaces of src/delivery.ts) -/

/-- The `HZNDeliveryStatus` string-union type. -/
inductive HZNDeliveryStatus
  | empty
  | newOrder
  | allocating
  | rejected
  | driverAssigned
  | pickingUp
  | driverNotFound
  | itemPicked
  | onDelivery
  | received
  | completed
  | reactivated
  | onHold
  | cancelled
  | delayed
  | expired
  | returned
  | failed
deriving DecidableEq

def HZNDeliveryStatus.toStr : HZNDeliveryStatus → String
  | .empty => ""
  | .newOrder => "NEW ORDER"
  | .allocating => "ALLOCATING"
  | .rejected => "REJECTED"
  | .driverAssigned => "DRIVER ASSIGNED"
  | .pickingUp => "PICKING UP"
  | .driverNotFound => "DRIVER NOT FOUND"
  | .itemPicked => "ITEM PICKED"
  | .onDelivery => "ON DELIVERY"
  | .received => "RECEIVED"
  | .completed => "COMPLETED"
  | .reactivated => "REACTIVATED"
  | .onHold => "ON HOLD"
  | .cancelled => "CANCELLED"
  | .delayed => "DELAYED"
  | .expired => "EXPIRED"
  | .returned => "RETURNED"
  | .failed => "FAILED"

def HZNDeliveryStatus.ofStr : String → Option HZNDeliveryStatus
  | "" => some .empty
  | "NEW ORDER" => some .newOrder
  | "ALLOCATING" => some .allocating
  | "REJECTED" => some .rejected
  | "DRIVER ASSIGNED" => some .driverAssigned
  | "PICKING UP" => some .pickingUp
  | "DRIVER NOT FOUND" => some .driverNotFound
  | "ITEM PICKED" => some .itemPicked
  | "ON DELIVERY" => some .onDelivery
  | "RECEIVED" => some .received
  | "COMPLETED" => some .completed
  | "REACTIVATED" => some .reactivated
  | "ON HOLD" => some .onHold
  | "CANCELLED" => some .cancelled
  | "DELAYED" => some .delayed
  | "EXPIRED" => some .expired
  | "RETURNED" => some .returned
  | "FAILED" => some .failed
  | _ => none

/-- The anonymous coordinates record inside `ICourier`. -/
structure ICoordinates where
  latitude : Int
  longitude : Int

/-- The anonymous vehicle record inside `ICourier`. -/
structure IVehicle where
  licensePlate : Option String

structure ICourier where
  name : String
  phone : Option String
  pictureUrl : Option String
  coordinates : Option ICoordinates
  vehicle : Option IVehicle

structure ITrack where
  status : String
  message : Option String
  createdAt : Int
  courier : Option ICourier

structure IRequestPayloadInsertToDeliveryTracking where
  id : String
  status : HZNDeliveryStatus
  trackingUrl : Option String
  track : ITrack
  photos : Option (List String)

structure IRequestPayloadIsCancellable where
  deliveryId : String

inductive LogCategory
  | activity
  | apiCall
  | authentication
  | webhook

def LogCategory.toStr : LogCategory → String
  | .activity => "ACTIVITY"
  | .apiCall => "API CALL"
  | .authentication => "AUTHENTICATION"
  | .webhook => "WEBHOOK"

def LogCategory.ofStr : String → Option LogCategory
  | "ACTIVITY" => some .activity
  | "API CALL" => some .apiCall
  | "AUTHENTICATION" => some .authentication
  | "WEBHOOK" => some .webhook
  | _ => none

inductive LogType
  | info
  | error

def LogType.toStr : LogType → String
  | .info => "INFO"
  | .error => "ERROR"

def LogType.ofStr : String → Option LogType
  | "INFO" => some .info
  | "ERROR" => some .error
  | _ => none

inductive LogTarget
  | hzn
  | client

def LogTarget.toStr : LogTarget → String
  | .hzn => "HZN"
  | .client => "CLIENT"

def LogTarget.ofStr : String → Option LogTarget
  | "HZN" => some .hzn
  | "CLIENT" => some .client
  | _ => none

/-- The anonymous `hznProduct` record inside `IRequestPayloadLog`. -/
structure IHznProduct where
  id : String
  name : String

/-- The `agent` record inside `IRequestPayloadLog`: a required `app_name`
plus an open index signature of further string entries. -/
structure IAgent where
  app_name : String
  extra : List (String × String)

structure IRequestPayloadLog where
  clientId : String
  category : LogCategory
  type : LogType
  target : LogTarget
  hznProduct : IHznProduct
  log : Json
  agent : IAgent

structure IRequestPayloadBilling where
  deliveryId : String
  completedAt : Int

structure IRequestChangeDeliveryStatus where
  deliveryId : String
  status : HZNDeliveryStatus

structure IRequestChangeDeliveryData where
  deliveryId : String
  newDeliveryId : Option String
  newAmount : Option Int
  newDeliveryStatus : Option HZNDeliveryStatus
  deliveryProofs : Option (List String)
  signature : Option String
  trackingUrl : Option String

structure IRequestSimulateWebhook where
  deliveryId : String
  serviceUrl : String
  scheduleExecutedAt : Int
  lastNotificationAt : Int

/-! ## JSON images of the payload variants

An optional (`?`) field that the caller leaves undefined is absent from
`JSON.stringify` output, so an `Option` field contributes a member only
when it is `some`. -/

def optMember (k : String) : Option Json → List (String × Json)
  | none => []
  | some v => [(k, v)]

def ICoordinates.toJson (c : ICoordinates) : Json :=
  .obj [("latitude", .num c.latitude), ("longitude", .num c.longitude)]

def IVehicle.toJson (v : IVehicle) : Json :=
  .obj (optMember "licensePlate" (v.licensePlate.map .str))

def ICourier.toJson (c : ICourier) : Json :=
  .obj (("name", .str c.name) ::
    (optMember "phone" (c.phone.map .str) ++
     optMember "pictureUrl" (c.pictureUrl.map .str) ++
     optMember "coordinates" (c.coordinates.map ICoordinates.toJson) ++
     optMember "vehicle" (c.vehicle.map IVehicle.toJson)))

def ITrack.toJson (t : ITrack) : Json :=
  .obj (("status", .str t.status) ::
    (optMember "message" (t.message.map .str) ++
     (("createdAt", .num t.createdAt) ::
      optMember "courier" (t.courier.map ICourier.toJson))))

def IRequestPayloadInsertToDeliveryTracking.toJson
    (p : IRequestPayloadInsertToDeliveryTracking) : Json :=
  .obj (("id", .str p.id) :: ("status", .str p.status.toStr) ::
    (optMember "trackingUrl" (p.trackingUrl.map .str) ++
     (("track", p.track.toJson) ::
      optMember "photos" (p.photos.map (fun l => Json.arr (l.map Json.str))))))

def IRequestPayloadIsCancellable.toJson (p : IRequestPayloadIsCancellable) : Json :=
  .obj [("deliveryId", .str p.deliveryId)]

def IAgent.toJson (a : IAgent) : Json :=
  .obj (("app_name", .str a.app_name) :: a.extra.map (fun kv => (kv.1, Json.str kv.2)))

def IRequestPayloadLog.toJson (p : IRequestPayloadLog) : Json :=
  .obj [("clientId", .str p.clientId), ("category", .str p.category.toStr),
    ("type", .str p.type.toStr), ("target", .str p.target.toStr),
    ("hznProduct", .obj [("id", .str p.hznProduct.id), ("name", .str p.hznProduct.name)]),
    ("log", p.log), ("agent", p.agent.toJson)]

def IRequestPayloadBilling.toJson (p : IRequestPayloadBilling) : Json :=
  .obj [("deliveryId", .str p.deliveryId), ("completedAt", .num p.completedAt)]

def IRequestChangeDeliveryStatus.toJson (p : IRequestChangeDeliveryStatus) : Json :=
  .obj [("deliveryId", .str p.deliveryId), ("status", .str p.status.toStr)]

def IRequestChangeDeliveryData.toJson (p : IRequestChangeDeliveryData) : Json :=
  .obj (("deliveryId", .str p.deliveryId) ::
    (optMember "newDeliveryId" (p.newDeliveryId.map .str) ++
     optMember "newAmount" (p.newAmount.map .num) ++
     optMember "newDeliveryStatus" (p.newDeliveryStatus.map (fun s => Json.str s.toStr)) ++
     optMember "deliveryProofs" (p.deliveryProofs.map (fun l => Json.arr (l.map Json.str))) ++
     optMember "signature" (p.signature.map .str) ++
     optMember "trackingUrl" (p.trackingUrl.map .str)))

def IRequestSimulateWebhook.toJson (p : IRequestSimulateWebhook) : Json :=
  .obj [("deliveryId", .str p.deliveryId), ("serviceUrl", .str p.serviceUrl),
    ("scheduleExecutedAt", .num p.scheduleExecutedAt),
    ("lastNotificationAt", .num p.lastNotificationAt)]

/-! ## Reading the payload variants back from their JSON images -/

def jsonToStr : Json → Option String
  | .str s => some s
  | _ => none

def jsonToNum : Json → Option Int
  | .num i => some i
  | _ => none

def jsonToStatus (j : Json) : Option HZNDeliveryStatus :=
  match j with
  | .str s => HZNDeliveryStatus.ofStr s
  | _ => none

def jsonStrList : List Json → Option (List String)
  | [] => some []
  | .str s :: rest =>
    match jsonStrList rest with
    | some l => some (s :: l)
    | none => none
  | _ => none

def jsonToStrList : Json → Option (List String)
  | .arr items => jsonStrList items
  | _ => none

/-- Emptiness of a list is decidable without deciding element equality. -/
instance listEqNilDecidable (l : List α) : Decidable (l = []) :=
  match l with
  | [] => isTrue rfl
  | x :: xs => isFalse (List.cons_ne_nil x xs)

/-- Read a required leading member with the given key. -/
def peelWith (k : String) (f : Json → Option α) :
    List (String × Json) → Option (α × List (String × Json))
  | (k1, v) :: r => if k1 = k then (f v).map (fun a => (a, r)) else none
  | [] => none

/-- Read an optional leading member with the given key: absent when the
head member has a different key (or the list ended). -/
def peelOptWith (k : String) (f : Json → Option α) :
    List (String × Json) → Option (Option α × List (String × Json))
  | [] => some (none, [])
  | (k1, v) :: r =>
    if k1 = k then
      match f v with
      | some a => some (some a, r)
      | none => none
    else some (none, (k1, v) :: r)

/-- The head member (if any) of a member list does not carry the key `k`;
an optional-field reader answers `none` on such a list. -/
def headKeyNe (k : String) : List (String × Json) → Prop
  | [] => True
  | (k1, _) :: _ => ¬(k1 = k)

def ICoordinates.fromJson : Json → Option ICoordinates
  | .obj ms => do
    let (lat, r1) ← peelWith "latitude" jsonToNum ms
    let (lng, r2) ← peelWith "longitude" jsonToNum r1
    guard (r2 = [])
    pure { latitude := lat, longitude := lng }
  | _ => none

def IVehicle.fromJson : Json → Option IVehicle
  | .obj ms => do
    let (lp, r1) ← peelOptWith "licensePlate" jsonToStr ms
    guard (r1 = [])
    pure { licensePlate := lp }
  | _ => none

def ICourier.fromJson : Json → Option ICourier
  | .obj ms => do
    let (nm, r1) ← peelWith "name" jsonToStr ms
    let (ph, r2) ← peelOptWith "phone" jsonToStr r1
    let (pu, r3) ← peelOptWith "pictureUrl" jsonToStr r2
    let (co, r4) ← peelOptWith "coordinates" ICoordinates.fromJson r3
    let (ve, r5) ← peelOptWith "vehicle" IVehicle.fromJson r4
    guard (r5 = [])
    pure { name := nm, phone := ph, pictureUrl := pu, coordinates := co, vehicle := ve }
  | _ => none

def ITrack.fromJson : Json → Option ITrack
  | .obj ms => do
    let (st, r1) ← peelWith "status" jsonToStr ms
    let (me, r2) ← peelOptWith "message" jsonToStr r1
    let (ca, r3) ← peelWith "createdAt" jsonToNum r2
    let (co, r4) ← peelOptWith "courier" ICourier.fromJson r3
    guard (r4 = [])
    pure { status := st, message := me, createdAt := ca, courier := co }
  | _ => none

def IRequestPayloadInsertToDeliveryTracking.fromJson :
    Json → Option IRequestPayloadInsertToDeliveryTracking
  | .obj ms => do
    let (i, r1) ← peelWith "id" jsonToStr ms
    let (st, r2) ← peelWith "status" jsonToStatus r1
    let (tu, r3) ← peelOptWith "trackingUrl" jsonToStr r2
    let (tr, r4) ← peelWith "track" ITrack.fromJson r3
    let (ph, r5) ← peelOptWith "photos" jsonToStrList r4
    guard (r5 = [])
    pure { id := i, status := st, trackingUrl := tu, track := tr, photos := ph }
  | _ => none

def IRequestPayloadIsCancellable.fromJson : Json → Option IRequestPayloadIsCancellable
  | .obj ms => do
    let (d, r1) ← peelWith "deliveryId" jsonToStr ms
    guard (r1 = [])
    pure { deliveryId := d }
  | _ => none

def agentExtras : List (String × Json) → Option (List (String × String))
  | [] => some []
  | (k, .str v) :: rest =>
    match agentExtras rest with
    | some l => some ((k, v) :: l)
    | none => none
  | _ => none

def IAgent.fromJson : Json → Option IAgent
  | .obj ((k, .str a) :: rest) =>
    if k = "app_name" then
      match agentExtras rest with
      | some ex => some { app_name := a, extra := ex }
      | none => none
    else none
  | _ => none

def IRequestPayloadLog.fromJson : Json → Option IRequestPayloadLog
  | .obj ms => do
    let (ci, r1) ← peelWith "clientId" jsonToStr ms
    let (ca, r2) ← peelWith "category"
      (fun j => (jsonToStr j).bind LogCategory.ofStr) r1
    let (ty, r3) ← peelWith "type" (fun j => (jsonToStr j).bind LogType.ofStr) r2
    let (ta, r4) ← peelWith "target" (fun j => (jsonToStr j).bind LogTarget.ofStr) r3
    let (hp, r5) ← peelWith "hznProduct"
      (fun j =>
        match j with
        | .obj pm => do
          let (i, q1) ← peelWith "id" jsonToStr pm
          let (n, q2) ← peelWith "name" jsonToStr q1
          guard (q2 = [])
          pure (IHznProduct.mk i n)
        | _ => none) r4
    let (lg, r6) ← peelWith "log" some r5
    let (ag, r7) ← peelWith "agent" IAgent.fromJson r6
    guard (r7 = [])
    pure { clientId := ci, category := ca, type := ty, target := ta,
           hznProduct := hp, log := lg, agent := ag }
  | _ => none

def IRequestPayloadBilling.fromJson : Json → Option IRequestPayloadBilling
  | .obj ms => do
    let (d, r1) ← peelWith "deliveryId" jsonToStr ms
    let (ct, r2) ← peelWith "completedAt" jsonToNum r1
    guard (r2 = [])
    pure { deliveryId := d, completedAt := ct }
  | _ => none

def IRequestChangeDeliveryStatus.fromJson : Json → Option IRequestChangeDeliveryStatus
  | .obj ms => do
    let (d, r1) ← peelWith "deliveryId" jsonToStr ms
    let (st, r2) ← peelWith "status" jsonToStatus r1
    guard (r2 = [])
    pure { deliveryId := d, status := st }
  | _ => none

def IRequestChangeDeliveryData.fromJson : Json → Option IRequestChangeDeliveryData
  | .obj ms => do
    let (d, r1) ← peelWith "deliveryId" jsonToStr ms
    let (ni, r2) ← peelOptWith "newDeliveryId" jsonToStr r1
    let (na, r3) ← peelOptWith "newAmount" jsonToNum r2
    let (ns, r4) ← peelOptWith "newDeliveryStatus" jsonToStatus r3
    let (dp, r5) ← peelOptWith "deliveryProofs" jsonToStrList r4
    let (si, r6) ← peelOptWith "signature" jsonToStr r5
    let (tu, r7) ← peelOptWith "trackingUrl" jsonToStr r6
    guard (r7 = [])
    pure { deliveryId := d, newDeliveryId := ni, newAmount := na,
           newDeliveryStatus := ns, deliveryProofs := dp, signature := si,
           trackingUrl := tu }
  | _ => none

def IRequestSimulateWebhook.fromJson : Json → Option IRequestSimulateWebhook
  | .obj ms => do
    let (d, r1) ← peelWith "deliveryId" jsonToStr ms
    let (su, r2) ← peelWith "serviceUrl" jsonToStr r1
    let (se, r3) ← peelWith "scheduleExecutedAt" jsonToNum r2
    let (ln, r4) ← peelWith "lastNotificationAt" jsonToNum r3
    guard (r4 = [])
    pure { deliveryId := d, serviceUrl := su, scheduleExecutedAt := se,
           lastNotificationAt := ln }
  | _ => none

/-! ## The closed set of payload variants -/

inductive Payload
  | insertToDeliveryTracking (p : IRequestPayloadInsertToDeliveryTracking)
  | isCancellable (p : IRequestPayloadIsCancellable)
  | log (p : IRequestPayloadLog)
  | billing (p : IRequestPayloadBilling)
  | changeDeliveryStatus (p : IRequestChangeDeliveryStatus)
  | changeDeliveryData (p : IRequestChangeDeliveryData)
  | simulateWebhook (p : IRequestSimulateWebhook)

inductive PayloadKind
  | insertToDeliveryTracking
  | isCancellable
  | log
  | billing
  | changeDeliveryStatus
  | changeDeliveryData
  | simulateWebhook

def Payload.kind : Payload → PayloadKind
  | .insertToDeliveryTracking _ => .insertToDeliveryTracking
  | .isCancellable _ => .isCancellable
  | .log _ => .log
  | .billing _ => .billing
  | .changeDeliveryStatus _ => .changeDeliveryStatus
  | .changeDeliveryData _ => .changeDeliveryData
  | .simulateWebhook _ => .simulateWebhook

def Payload.toJson : Payload → Json
  | .insertToDeliveryTracking p => p.toJson
  | .isCancellable p => p.toJson
  | .log p => p.toJson
  | .billing p => p.toJson
  | .changeDeliveryStatus p => p.toJson
  | .changeDeliveryData p => p.toJson
  | .simulateWebhook p => p.toJson

/-- Interpret a JSON structure as a payload of the given variant. -/
def payloadFromJson : PayloadKind → Json → Option Payload
  | .insertToDeliveryTracking, j =>
    (IRequestPayloadInsertToDeliveryTracking.fromJson j).map .insertToDeliveryTracking
  | .isCancellable, j => (IRequestPayloadIsCancellable.fromJson j).map .isCancellable
  | .log, j => (IRequestPayloadLog.fromJson j).map .log
  | .billing, j => (IRequestPayloadBilling.fromJson j).map .billing
  | .changeDeliveryStatus, j =>
    (IRequestChangeDeliveryStatus.fromJson j).map .changeDeliveryStatus
  | .changeDeliveryData, j =>
    (IRequestChangeDeliveryData.fromJson j).map .changeDeliveryData
  | .simulateWebhook, j => (IRequestSimulateWebhook.fromJson j).map .simulateWebhook

/-- Decode a transmitted body back to a payload of the given variant:
base64, then JSON, then the variant's record shape. -/
def decodePayload (k : PayloadKind) (body : String) : Option Payload :=
  match decodeBody body with
  | some j => payloadFromJson k j
  | none => none

/-! ## Task descriptors and the DeliveryTaskCreator class -/

structure OidcToken where
  serviceAccountEmail : String

structure HttpRequestSpec where
  httpMethod : String
  url : String
  body : String
  headers : List (String × String)
  oidcToken : OidcToken

structure TaskSpec where
  httpRequest : HttpRequestSpec

/-- The argument of the external enqueue call: a queue path and a task. -/
structure TaskRequest where
  parent : String
  task : TaskSpec

/-- Modelled from the spec: `client.queuePath(project, location, queue)` of
the external Cloud Tasks client, which the spec records as deriving
`projects/{project}/locations/{location}/queues/{queueName}`. -/
def queuePath (project location queue : String) : String :=
  "projects/" ++ project ++ "/locations/" ++ location ++ "/queues/" ++ queue

/-- The class state set up by the constructor of `DeliveryTaskCreator`
(current revision, src/delivery.ts). -/
structure DeliveryTaskCreator where
  project : String
  serviceAccountEmail : String

/-- `new DeliveryTaskCreator(project)`. -/
def mkDeliveryTaskCreator (project : String) : DeliveryTaskCreator :=
  { project := project,
    serviceAccountEmail := project ++ "@appspot.gserviceaccount.com" }

/-- `DeliveryTaskCreator.createRequest` of the current revision. -/
def DeliveryTaskCreator.createRequest (c : DeliveryTaskCreator) (payload : Json)
    (location queue url : String) : TaskRequest :=
  { parent := queuePath c.project location queue,
    task :=
      { httpRequest :=
          { httpMethod := "POST",
            url := url,
            body := encodeBody payload,
            headers := [("Content-Type", "application/json")],
            oidcToken := { serviceAccountEmail := c.serviceAccountEmail } } } }

/-- The class state set up by the constructor of the earlier revision's
`DeliveryTaskCreator`. -/
structure DeliveryTaskCreatorV0 where
  project : String
  serviceAccountEmail : String

/-- `new DeliveryTaskCreator(project)` of the earlier revision. -/
def mkDeliveryTaskCreatorV0 (project : String) : DeliveryTaskCreatorV0 :=
  { project := project,
    serviceAccountEmail := project ++ "@appspot.gserviceaccount.com" }

/-- `DeliveryTaskCreator.createRequest` of the earlier revision. -/
def DeliveryTaskCreatorV0.createRequest (c : DeliveryTaskCreatorV0) (payload : Json)
    (location queue url : String) : TaskRequest :=
  { parent := queuePath c.project location queue,
    task :=
      { httpRequest :=
          { httpMethod := "POST",
            url := url,
            body := encodeBody payload,
            headers := [("Content-Type", "application/json")],
            oidcToken := { serviceAccountEmail := c.serviceAccountEmail } } } }

/-- `simulateWebhook` of the earlier revision uses a fixed Cloud-Functions
URL; the request it hands to the enqueue call. -/
def DeliveryTaskCreatorV0.simulateWebhookRequest (c : DeliveryTaskCreatorV0)
    (payload : IRequestSimulateWebhook) : TaskRequest :=
  c.createRequest payload.toJson "asia-east1" "simulate-webhook"
    ("https://us-central1-" ++ c.project ++ ".cloudfunctions.net/simulateWebhook")

/-! ### The per-operation requests of the current revision -/

def DeliveryTaskCreator.insertToDeliveryTrackingRequest (c : DeliveryTaskCreator)
    (payload : IRequestPayloadInsertToDeliveryTracking) : TaskRequest :=
  c.createRequest payload.toJson "asia-east1"
    "insert-to-delivery-tracking-collection-tmp"
    ("https://us-central1-" ++ c.project ++
      ".cloudfunctions.net/insertToDeliveryTrackingCollection")

def DeliveryTaskCreator.updateIsCancellableRequest (c : DeliveryTaskCreator)
    (payload : IRequestPayloadIsCancellable) : TaskRequest :=
  c.createRequest payload.toJson "asia-east1" "update-is-cancellable"
    ("https://us-central1-" ++ c.project ++ ".cloudfunctions.net/isDeliveryCancellable")

def DeliveryTaskCreator.insertLogRequest (c : DeliveryTaskCreator)
    (payload : IRequestPayloadLog) : TaskRequest :=
  c.createRequest payload.toJson "asia-east1" "insert-log"
    ("https://us-central1-" ++ c.project ++ ".cloudfunctions.net/insertLog")

def DeliveryTaskCreator.forwardingWebhookRequest (c : DeliveryTaskCreator)
    (payload : IRequestPayloadInsertToDeliveryTracking) : TaskRequest :=
  c.createRequest payload.toJson "asia-east1" "forwarding-webhook"
    ("https://us-central1-" ++ c.project ++ ".cloudfunctions.net/forwardingWebhook")

def DeliveryTaskCreator.createBillingRequest (c : DeliveryTaskCreator)
    (payload : IRequestPayloadBilling) : TaskRequest :=
  c.createRequest payload.toJson "asia-east1" "create-billing"
    ("https://us-central1-" ++ c.project ++ ".cloudfunctions.net/createBilling")

def DeliveryTaskCreator.changeDeliveryStatusRequest (c : DeliveryTaskCreator)
    (payload : IRequestChangeDeliveryStatus) : TaskRequest :=
  c.createRequest payload.toJson "asia-east1" "change-delivery-status"
    ("https://us-central1-" ++ c.project ++ ".cloudfunctions.net/changeDeliveryStatus")

def DeliveryTaskCreator.changeDeliveryDataRequest (c : DeliveryTaskCreator)
    (payload : IRequestChangeDeliveryData) : TaskRequest :=
  c.createRequest payload.toJson "asia-east1" "change-delivery-data"
    ("https://us-central1-" ++ c.project ++ ".cloudfunctions.net/changeDeliveryData")

/-- The URL switch at the top of `simulateWebhook` (current revision). -/
def simulateWebhookUrl (project : String) : String :=
  match project with
  | "hzn-production" =>
    "https://delivery-partners-queue-run-production-vtbootglhq-uc.a.run.app/v1/webhooks/simulate"
  | "hzn-sandbox" =>
    "https://delivery-partners-queue-run-sandbox-adchrwkija-uc.a.run.app/v1/webhooks/simulate"
  | _ =>
    "https://delivery-partners-queue-run-development-ai2gu4pljq-uc.a.run.app/v1/webhooks/simulate"

def DeliveryTaskCreator.simulateWebhookRequest (c : DeliveryTaskCreator)
    (payload : IRequestSimulateWebhook) : TaskRequest :=
  c.createRequest payload.toJson "asia-east1" "simulate-webhook"
    (simulateWebhookUrl c.project)

/-! ### The full operations, with the external enqueue call as a parameter

`client.createTask(request)` either resolves with a created task (whose
`name` the method returns after logging it) or rejects; the `catch` block
logs the failure and returns the error value itself.  The outcome of the
external call is passed in as a function from requests to `Except`. -/

/-- What an operation returns to its caller: the created task's name on
success, or (because the catch block returns `error`) the error value. -/
inductive TaskCreateResult
  | taskName (name : String)
  | errorValue (error : String)
deriving DecidableEq

/-- The try/catch body shared by every operation: run the enqueue call on
the already-built request, log and return the task name on success, log
and return the error on failure.  The second component collects the
console output. -/
def runCreateTask (errLabel : String) (createTask : TaskRequest → Except String String)
    (request : TaskRequest) : TaskCreateResult × List String :=
  match createTask request with
  | .ok name => (.taskName name, ["Created task " ++ name])
  | .error e => (.errorValue e, [errLabel ++ e])

def DeliveryTaskCreator.insertToDeliveryTracking (c : DeliveryTaskCreator)
    (payload : IRequestPayloadInsertToDeliveryTracking)
    (createTask : TaskRequest → Except String String) : TaskCreateResult × List String :=
  runCreateTask "Error insertToDeliveryTracking: " createTask
    (c.insertToDeliveryTrackingRequest payload)

def DeliveryTaskCreator.updateIsCancellable (c : DeliveryTaskCreator)
    (payload : IRequestPayloadIsCancellable)
    (createTask : TaskRequest → Except String String) : TaskCreateResult × List String :=
  runCreateTask "Error updateIsCancellable: " createTask
    (c.updateIsCancellableRequest payload)

def DeliveryTaskCreator.insertLog (c : DeliveryTaskCreator)
    (payload : IRequestPayloadLog)
    (createTask : TaskRequest → Except String String) : TaskCreateResult × List String :=
  runCreateTask "Error insertLog: " createTask (c.insertLogRequest payload)

def DeliveryTaskCreator.forwardingWebhook (c : DeliveryTaskCreator)
    (payload : IRequestPayloadInsertToDeliveryTracking)
    (createTask : TaskRequest → Except String String) : TaskCreateResult × List String :=
  runCreateTask "Error forwardingWebhook: " createTask (c.forwardingWebhookRequest payload)

def DeliveryTaskCreator.createBilling (c : DeliveryTaskCreator)
    (payload : IRequestPayloadBilling)
    (createTask : TaskRequest → Except String String) : TaskCreateResult × List String :=
  runCreateTask "Error createBilling: " createTask (c.createBillingRequest payload)

def DeliveryTaskCreator.changeDeliveryStatus (c : DeliveryTaskCreator)
    (payload : IRequestChangeDeliveryStatus)
    (createTask : TaskRequest → Except String String) : TaskCreateResult × List String :=
  runCreateTask "Error changeDeliveryStatus: " createTask
    (c.changeDeliveryStatusRequest payload)

def DeliveryTaskCreator.changeDeliveryData (c : DeliveryTaskCreator)
    (payload : IRequestChangeDeliveryData)
    (createTask : TaskRequest → Except String String) : TaskCreateResult × List String :=
  runCreateTask "Error changeDeliveryData: " createTask
    (c.changeDeliveryDataRequest payload)

/-- The catch block of `simulateWebhook` logs with the label
`Error changeDeliveryData: `, exactly as in the source. -/
def DeliveryTaskCreator.simulateWebhook (c : DeliveryTaskCreator)
    (payload : IRequestSimulateWebhook)
    (createTask : TaskRequest → Except String String) : TaskCreateResult × List String :=
  runCreateTask "Error changeDeliveryData: " createTask (c.simulateWebhookRequest payload)

/-! ### The operations as a closed enumeration -/

inductive Op
  | insertToDeliveryTracking
  | updateIsCancellable
  | insertLog
  | forwardingWebhook
  | createBilling
  | changeDeliveryStatus
  | changeDeliveryData
  | simulateWebhook

/-- The payload interface each exported method takes. -/
def Op.PayloadType : Op → Type
  | .insertToDeliveryTracking => IRequestPayloadInsertToDeliveryTracking
  | .updateIsCancellable => IRequestPayloadIsCancellable
  | .insertLog => IRequestPayloadLog
  | .forwardingWebhook => IRequestPayloadInsertToDeliveryTracking
  | .createBilling => IRequestPayloadBilling
  | .changeDeliveryStatus => IRequestChangeDeliveryStatus
  | .changeDeliveryData => IRequestChangeDeliveryData
  | .simulateWebhook => IRequestSimulateWebhook

/-- The fixed queue name of each operation. -/
def Op.queueName : Op → String
  | .insertToDeliveryTracking => "insert-to-delivery-tracking-collection-tmp"
  | .updateIsCancellable => "update-is-cancellable"
  | .insertLog => "insert-log"
  | .forwardingWebhook => "forwarding-webhook"
  | .createBilling => "create-billing"
  | .changeDeliveryStatus => "change-delivery-status"
  | .changeDeliveryData => "change-delivery-data"
  | .simulateWebhook => "simulate-webhook"

/-- The request each operation hands to the enqueue call. -/
def Op.request : (o : Op) → DeliveryTaskCreator → o.PayloadType → TaskRequest
  | .insertToDeliveryTracking, c, p => c.insertToDeliveryTrackingRequest p
  | .updateIsCancellable, c, p => c.updateIsCancellableRequest p
  | .insertLog, c, p => c.insertLogRequest p
  | .forwardingWebhook, c, p => c.forwardingWebhookRequest p
  | .createBilling, c, p => c.createBillingRequest p
  | .changeDeliveryStatus, c, p => c.changeDeliveryStatusRequest p
  | .changeDeliveryData, c, p => c.changeDeliveryDataRequest p
  | .simulateWebhook, c, p => c.simulateWebhookRequest p

/-- The full behaviour of each operation given the enqueue outcome. -/
def Op.run : (o : Op) → DeliveryTaskCreator → o.PayloadType →
    (TaskRequest → Except String String) → TaskCreateResult × List String
  | .insertToDeliveryTracking, c, p, ct => c.insertToDeliveryTracking p ct
  | .updateIsCancellable, c, p, ct => c.updateIsCancellable p ct
  | .insertLog, c, p, ct => c.insertLog p ct
  | .forwardingWebhook, c, p, ct => c.forwardingWebhook p ct
  | .createBilling, c, p, ct => c.createBilling p ct
  | .changeDeliveryStatus, c, p, ct => c.changeDeliveryStatus p ct
  | .changeDeliveryData, c, p, ct => c.changeDeliveryData p ct
  | .simulateWebhook, c, p, ct => c.simulateWebhook p ct

/-- The label each operation's catch block logs before the error (the
`simulateWebhook` label repeats `changeDeliveryData`, as in the source). -/
def Op.errLabel : Op → String
  | .insertToDeliveryTracking => "Error insertToDeliveryTracking: "
  | .updateIsCancellable => "Error updateIsCancellable: "
  | .insertLog => "Error insertLog: "
  | .forwardingWebhook => "Error forwardingWebhook: "
  | .createBilling => "Error createBilling: "
  | .changeDeliveryStatus => "Error changeDeliveryStatus: "
  | .changeDeliveryData => "Error changeDeliveryData: "
  | .simulateWebhook => "Error changeDeliveryData: "

/-! ### Concrete sample payloads used by witnesses and counterexamples -/

def sampleSimulateWebhook : IRequestSimulateWebhook :=
  { deliveryId := "DELIVERY-1",
    serviceUrl := "https://client.example/webhook",
    scheduleExecutedAt := 1700000000,
    lastNotificationAt := 1690000000 }

def sampleIsCancellable : IRequestPayloadIsCancellable :=
  { deliveryId := "DELIVERY-1" }

/-! # Theorems

## Character helpers -/

theorem toNat_ofNat_valid {n : Nat} (h : Nat.isValidChar n) : (Char.ofNat n).toNat = n := by
  rw [Char.ofNat, dif_pos h]
  simp [Char.ofNatAux, Char.toNat, UInt32.toNat]

theorem toNat_ofNat_small {n : Nat} (h : n < 55296) : (Char.ofNat n).toNat = n :=
  toNat_ofNat_valid (Or.inl h)

theorem char_toNat_inj {c d : Char} (h : c.toNat = d.toNat) : c = d := by
  have h2 := congrArg Char.ofNat h
  simpa using h2

theorem char_ne_of_toNat_ne {c d : Char} (h : c.toNat ≠ d.toNat) : c ≠ d :=
  fun he => h (by rw [he])

theorem char_valid (c : Char) :
    c.toNat < 55296 ∨ (57343 < c.toNat ∧ c.toNat < 1114112) := c.valid

theorem isDigit_toNat {d : Char} (h : isDigitChar d = true) :
    48 ≤ d.toNat ∧ d.toNat ≤ 57 := by
  simpa [isDigitChar, Bool.and_eq_true, decide_eq_true_eq] using h

theorem isDigitChar_ofNat {n : Nat} (h : n < 10) :
    isDigitChar (Char.ofNat (48 + n)) = true := by
  simp [isDigitChar, toNat_ofNat_small (by omega : 48 + n < 55296), Bool.and_eq_true,
    decide_eq_true_eq]
  omega

/-! ## Decimal digits round trip -/

theorem natChars_cons (n : Nat) :
    ∃ d t, natChars n = d :: t ∧ isDigitChar d = true := by
  rw [natChars]
  by_cases h : n < 10
  · rw [dif_pos h]
    exact ⟨_, _, rfl, isDigitChar_ofNat h⟩
  · rw [dif_neg h]
    obtain ⟨d, t, hdt, hdig⟩ := natChars_cons (n / 10)
    exact ⟨d, t ++ [Char.ofNat (48 + n % 10)], by rw [hdt]; simp, hdig⟩
termination_by n
decreasing_by
  exact Nat.div_lt_self (by omega) (by omega)

theorem pDigits_stop (acc : Nat) (rest : List Char) (h : nonDigitStart rest) :
    pDigits acc rest = (acc, rest) := by
  cases rest with
  | nil => simp [pDigits]
  | cons c cs =>
    simp only [nonDigitStart] at h
    simp [pDigits, h]

theorem pDigits_natChars (n acc : Nat) (rest : List Char) :
    pDigits acc (natChars n ++ rest) =
      pDigits (acc * 10 ^ (natChars n).length + n) rest := by
  rw [natChars]
  by_cases h : n < 10
  · rw [dif_pos h]
    have ht := toNat_ofNat_small (by omega : 48 + n < 55296)
    simp only [List.singleton_append, List.length_singleton, pow_one]
    simp [pDigits, isDigitChar_ofNat h, ht]
  · rw [dif_neg h]
    rw [List.append_assoc, List.singleton_append]
    rw [pDigits_natChars (n / 10) acc]
    have ht := toNat_ofNat_small (by omega : 48 + n % 10 < 55296)
    simp [pDigits, isDigitChar_ofNat (by omega : n % 10 < 10), ht]
    congr 1
    rw [pow_succ, Nat.add_mul, Nat.mul_assoc]
    omega
termination_by n
decreasing_by
  exact Nat.div_lt_self (by omega) (by omega)

theorem pNat_natChars (n : Nat) (rest : List Char) (h : nonDigitStart rest) :
    pNat (natChars n ++ rest) = some (n, rest) := by
  obtain ⟨d, t, hdt, hdig⟩ := natChars_cons n
  rw [hdt, List.cons_append]
  simp only [pNat, hdig, if_true]
  rw [← List.cons_append, ← hdt, pDigits_natChars, pDigits_stop _ _ h]
  simp

/-! ## String escaping round trip -/

theorem hexVal_hexChar {v : Nat} (h : v < 16) : hexVal (hexChar v) = some v := by
  by_cases h10 : v < 10
  · have ht := toNat_ofNat_small (by omega : 48 + v < 55296)
    rw [hexChar, if_pos h10, hexVal, ht, if_pos (by omega)]
    congr 1
    omega
  · have ht := toNat_ofNat_small (by omega : 87 + v < 55296)
    rw [hexChar, if_neg h10, hexVal, ht, if_neg (by omega), if_pos (by omega)]
    congr 1
    omega

theorem pStrBody_quote (cs : List Char) : pStrBody (quoteChar :: cs) = some ([], cs) := by
  rw [pStrBody.eq_def]
  simp

theorem pStrBody_lit {c : Char} (h1 : c ≠ quoteChar) (h2 : c ≠ bslashChar)
    (cs : List Char) : pStrBody (c :: cs) = consFst c (pStrBody cs) := by
  rw [pStrBody.eq_def]
  simp [h1, h2]

theorem pStrBody_escQuote (cs : List Char) :
    pStrBody (bslashChar :: quoteChar :: cs) = consFst quoteChar (pStrBody cs) := by
  rw [pStrBody.eq_def]
  simp [(by decide : bslashChar ≠ quoteChar)]

theorem pStrBody_escBslash (cs : List Char) :
    pStrBody (bslashChar :: bslashChar :: cs) = consFst bslashChar (pStrBody cs) := by
  rw [pStrBody.eq_def]
  simp [(by decide : bslashChar ≠ quoteChar)]

theorem pStrBody_escB (cs : List Char) :
    pStrBody (bslashChar :: 'b' :: cs) = consFst (Char.ofNat 8) (pStrBody cs) := by
  rw [pStrBody.eq_def]
  simp [(by decide : bslashChar ≠ quoteChar), (by decide : ('b' : Char) ≠ quoteChar),
    (by decide : ('b' : Char) ≠ bslashChar)]

theorem pStrBody_escT (cs : List Char) :
    pStrBody (bslashChar :: 't' :: cs) = consFst (Char.ofNat 9) (pStrBody cs) := by
  rw [pStrBody.eq_def]
  simp [(by decide : bslashChar ≠ quoteChar), (by decide : ('t' : Char) ≠ quoteChar),
    (by decide : ('t' : Char) ≠ bslashChar), (by decide : ('t' : Char) ≠ 'b')]

theorem pStrBody_escN (cs : List Char) :
    pStrBody (bslashChar :: 'n' :: cs) = consFst (Char.ofNat 10) (pStrBody cs) := by
  rw [pStrBody.eq_def]
  simp [(by decide : bslashChar ≠ quoteChar), (by decide : ('n' : Char) ≠ quoteChar),
    (by decide : ('n' : Char) ≠ bslashChar), (by decide : ('n' : Char) ≠ 'b'),
    (by decide : ('n' : Char) ≠ 't')]

theorem pStrBody_escF (cs : List Char) :
    pStrBody (bslashChar :: 'f' :: cs) = consFst (Char.ofNat 12) (pStrBody cs) := by
  rw [pStrBody.eq_def]
  simp [(by decide : bslashChar ≠ quoteChar), (by decide : ('f' : Char) ≠ quoteChar),
    (by decide : ('f' : Char) ≠ bslashChar), (by decide : ('f' : Char) ≠ 'b'),
    (by decide : ('f' : Char) ≠ 't'), (by decide : ('f' : Char) ≠ 'n')]

theorem pStrBody_escR (cs : List Char) :
    pStrBody (bslashChar :: 'r' :: cs) = consFst (Char.ofNat 13) (pStrBody cs) := by
  rw [pStrBody.eq_def]
  simp [(by decide : bslashChar ≠ quoteChar), (by decide : ('r' : Char) ≠ quoteChar),
    (by decide : ('r' : Char) ≠ bslashChar), (by decide : ('r' : Char) ≠ 'b'),
    (by decide : ('r' : Char) ≠ 't'), (by decide : ('r' : Char) ≠ 'n'),
    (by decide : ('r' : Char) ≠ 'f')]

theorem pStrBody_escU {hi lo : Nat} (hhi : hi < 16) (hlo : lo < 16)
    (hval : Nat.isValidChar (hi * 16 + lo)) (cs : List Char) :
    pStrBody (bslashChar :: 'u' :: '0' :: '0' :: hexChar hi :: hexChar lo :: cs) =
      consFst (Char.ofNat (hi * 16 + lo)) (pStrBody cs) := by
  have hX : ((0 * 16 + 0) * 16 + hi) * 16 + lo = hi * 16 + lo := by omega
  rw [pStrBody.eq_def]
  simp [(by decide : bslashChar ≠ quoteChar), (by decide : ('u' : Char) ≠ quoteChar),
    (by decide : ('u' : Char) ≠ bslashChar), (by decide : ('u' : Char) ≠ 'b'),
    (by decide : ('u' : Char) ≠ 't'), (by decide : ('u' : Char) ≠ 'n'),
    (by decide : ('u' : Char) ≠ 'f'), (by decide : ('u' : Char) ≠ 'r'),
    (by decide : hexVal '0' = some 0), hexVal_hexChar hhi, hexVal_hexChar hlo, hX, hval]

theorem pStrBody_escChars (s : List Char) (rest : List Char) :
    pStrBody (escChars s ++ quoteChar :: rest) = some (s, rest) := by
  induction s with
  | nil =>
    simp only [escChars, List.nil_append]
    exact pStrBody_quote rest
  | cons c s ih =>
    show pStrBody ((escChar c ++ escChars s) ++ quoteChar :: rest) = _
    rw [List.append_assoc]
    by_cases hq : c = quoteChar
    · subst hq
      simp [escChar, pStrBody_escQuote, consFst, ih]
    · by_cases hb : c = bslashChar
      · subst hb
        simp [escChar, hq, pStrBody_escBslash, consFst, ih]
      · by_cases h8 : c.toNat = 8
        · have hc : Char.ofNat 8 = c :=
            char_toNat_inj (by rw [toNat_ofNat_small (by omega), h8])
          simp [escChar, hq, hb, h8, pStrBody_escB, consFst, ih]
          exact hc
        · by_cases h9 : c.toNat = 9
          · have hc : Char.ofNat 9 = c :=
              char_toNat_inj (by rw [toNat_ofNat_small (by omega), h9])
            simp [escChar, hq, hb, h8, h9, pStrBody_escT, consFst, ih]
            exact hc
          · by_cases h10 : c.toNat = 10
            · have hc : Char.ofNat 10 = c :=
                char_toNat_inj (by rw [toNat_ofNat_small (by omega), h10])
              simp [escChar, hq, hb, h8, h9, h10, pStrBody_escN, consFst, ih]
              exact hc
            · by_cases h12 : c.toNat = 12
              · have hc : Char.ofNat 12 = c :=
                  char_toNat_inj (by rw [toNat_ofNat_small (by omega), h12])
                simp [escChar, hq, hb, h8, h9, h10, h12, pStrBody_escF, consFst, ih]
                exact hc
              · by_cases h13 : c.toNat = 13
                · have hc : Char.ofNat 13 = c :=
                    char_toNat_inj (by rw [toNat_ofNat_small (by omega), h13])
                  simp [escChar, hq, hb, h8, h9, h10, h12, h13, pStrBody_escR, consFst, ih]
                  exact hc
                · by_cases hlt : c.toNat < 32
                  · have hY : c.toNat / 16 * 16 + c.toNat % 16 = c.toNat := by omega
                    have hc : Char.ofNat (c.toNat / 16 * 16 + c.toNat % 16) = c := by
                      rw [hY, Char.ofNat_toNat]
                    have hu := @pStrBody_escU (c.toNat / 16) (c.toNat % 16)
                      (by omega) (by omega)
                      (by rw [hY]; exact Or.inl (by omega))
                      (escChars s ++ quoteChar :: rest)
                    simp [escChar, hq, hb, h8, h9, h10, h12, h13, hlt, hu, consFst, ih]
                    exact hc
                  · simp [escChar, hq, hb, h8, h9, h10, h12, h13, hlt,
                      pStrBody_lit hq hb, consFst, ih]

/-! ## Equations of the serializer and fuel measures -/

theorem stringMk_data (s : String) : String.mk s.data = s := by
  cases s
  rfl

theorem strJson_str (s : String) :
    strJson (.str s) = quoteChar :: (escChars s.data ++ [quoteChar]) := by
  rw [strJson]

theorem strJson_num (i : Int) : strJson (.num i) = intChars i := by
  rw [strJson]

theorem strJson_true : strJson (.bool true) = ['t', 'r', 'u', 'e'] := by
  rw [strJson]

theorem strJson_false : strJson (.bool false) = ['f', 'a', 'l', 's', 'e'] := by
  rw [strJson]

theorem strJson_null : strJson .null = ['n', 'u', 'l', 'l'] := by
  rw [strJson]

theorem strJson_arrNil : strJson (.arr []) = [lbrackChar, rbrackChar] := by
  rw [strJson]

theorem strJson_arrCons (x : Json) (xs : List Json) :
    strJson (.arr (x :: xs)) = lbrackChar :: (strItems x xs ++ [rbrackChar]) := by
  rw [strJson]

theorem strJson_objNil : strJson (.obj []) = [lbraceChar, rbraceChar] := by
  rw [strJson]

theorem strJson_objCons (kv : String × Json) (kvs : List (String × Json)) :
    strJson (.obj (kv :: kvs)) = lbraceChar :: (strMembers kv kvs ++ [rbraceChar]) := by
  rw [strJson]

theorem strItems_nil (x : Json) : strItems x [] = strJson x := by
  rw [strItems]

theorem strItems_cons (x y : Json) (ys : List Json) :
    strItems x (y :: ys) = strJson x ++ commaChar :: strItems y ys := by
  rw [strItems]

theorem strMembers_nil (k : String) (v : Json) :
    strMembers (k, v) [] =
      quoteChar :: (escChars k.data ++ [quoteChar]) ++ colonChar :: strJson v := by
  rw [strMembers]

theorem strMembers_cons (k : String) (v : Json) (m : String × Json)
    (ms : List (String × Json)) :
    strMembers (k, v) (m :: ms) =
      (quoteChar :: (escChars k.data ++ [quoteChar]) ++ colonChar :: strJson v) ++
        commaChar :: strMembers m ms := by
  rw [strMembers]

theorem jsize_str (s : String) : jsize (.str s) = 1 := by
  rw [jsize]

theorem jsize_num (i : Int) : jsize (.num i) = 1 := by
  rw [jsize]

theorem jsize_bool (b : Bool) : jsize (.bool b) = 1 := by
  cases b <;> rw [jsize]

theorem jsize_null : jsize .null = 1 := by
  rw [jsize]

theorem jsize_arrNil : jsize (.arr []) = 1 := by
  rw [jsize]

theorem jsize_arrCons (x : Json) (xs : List Json) :
    jsize (.arr (x :: xs)) = 1 + isize x xs := by
  rw [jsize]

theorem jsize_objNil : jsize (.obj []) = 1 := by
  rw [jsize]

theorem jsize_objCons (kv : String × Json) (kvs : List (String × Json)) :
    jsize (.obj (kv :: kvs)) = 1 + msize kv kvs := by
  rw [jsize]

theorem isize_nil (x : Json) : isize x [] = 1 + jsize x := by
  rw [isize]

theorem isize_cons (x y : Json) (ys : List Json) :
    isize x (y :: ys) = 1 + jsize x + isize y ys := by
  rw [isize]

theorem msize_nil (k : String) (v : Json) : msize (k, v) [] = 1 + jsize v := by
  rw [msize]

theorem msize_cons (k : String) (v : Json) (m : String × Json)
    (ms : List (String × Json)) :
    msize (k, v) (m :: ms) = 1 + jsize v + msize m ms := by
  rw [msize]

/-! ## Head characters of serialized values -/

theorem natChars_head_bound (n : Nat) :
    ∃ d t, natChars n = d :: t ∧ 48 ≤ d.toNat ∧ d.toNat ≤ 57 := by
  obtain ⟨d, t, hdt, hdig⟩ := natChars_cons n
  exact ⟨d, t, hdt, isDigit_toNat hdig⟩

theorem strJson_head (j : Json) :
    ∃ d t, strJson j = d :: t ∧ d ≠ rbrackChar ∧ d ≠ rbraceChar := by
  cases j with
  | str s =>
    exact ⟨quoteChar, _, strJson_str s, by decide, by decide⟩
  | num i =>
    rw [strJson_num, intChars]
    by_cases hneg : i < 0
    · rw [if_pos hneg]
      exact ⟨minusChar, _, rfl, by decide, by decide⟩
    · rw [if_neg hneg]
      obtain ⟨d, t, hdt, hd1, hd2⟩ := natChars_head_bound i.natAbs
      refine ⟨d, t, hdt, ?_, ?_⟩
      · exact char_ne_of_toNat_ne (by rw [(by decide : rbrackChar.toNat = 93)]; omega)
      · exact char_ne_of_toNat_ne (by rw [(by decide : rbraceChar.toNat = 125)]; omega)
  | bool b =>
    cases b
    · exact ⟨'f', _, strJson_false, by decide, by decide⟩
    · exact ⟨'t', _, strJson_true, by decide, by decide⟩
  | null =>
    exact ⟨'n', _, strJson_null, by decide, by decide⟩
  | arr items =>
    cases items with
    | nil => exact ⟨lbrackChar, _, strJson_arrNil, by decide, by decide⟩
    | cons x xs => exact ⟨lbrackChar, _, strJson_arrCons x xs, by decide, by decide⟩
  | obj members =>
    cases members with
    | nil => exact ⟨lbraceChar, _, strJson_objNil, by decide, by decide⟩
    | cons kv kvs => exact ⟨lbraceChar, _, strJson_objCons kv kvs, by decide, by decide⟩

theorem strItems_head (x : Json) (xs : List Json) :
    ∃ d t, strItems x xs = d :: t ∧ d ≠ rbrackChar ∧ d ≠ rbraceChar := by
  obtain ⟨d, t, hdt, h1, h2⟩ := strJson_head x
  cases xs with
  | nil => exact ⟨d, t, by rw [strItems_nil, hdt], h1, h2⟩
  | cons y ys =>
    exact ⟨d, t ++ commaChar :: strItems y ys, by rw [strItems_cons, hdt]; simp, h1, h2⟩

theorem strMembers_head (kv : String × Json) (ms : List (String × Json)) :
    ∃ t, strMembers kv ms = quoteChar :: t := by
  obtain ⟨k, v⟩ := kv
  cases ms with
  | nil =>
    refine ⟨escChars k.data ++ [quoteChar] ++ colonChar :: strJson v, ?_⟩
    rw [strMembers_nil]
    simp
  | cons m ms1 =>
    refine ⟨escChars k.data ++ [quoteChar] ++ colonChar :: strJson v ++
      commaChar :: strMembers m ms1, ?_⟩
    rw [strMembers_cons]
    simp

/-! ## Parsing the serialization of atomic values -/

theorem pVal_strLit (fuel : Nat) (s : List Char) (rest : List Char) :
    pVal (fuel + 1) (quoteChar :: (escChars s ++ quoteChar :: rest)) =
      some (.str (String.mk s), rest) := by
  rw [pVal]
  simp [pStrBody_escChars, pStrTail]

theorem pVal_num (fuel : Nat) (i : Int) (rest : List Char) (h : nonDigitStart rest) :
    pVal (fuel + 1) (intChars i ++ rest) = some (.num i, rest) := by
  rw [intChars]
  by_cases hneg : i < 0
  · rw [if_pos hneg, List.cons_append, pVal]
    rw [if_neg (by decide : ¬(minusChar = quoteChar)), if_pos rfl,
      pNat_natChars _ _ h]
    rw [pNumTail, if_pos rfl]
    have hI : -((i.natAbs : Nat) : Int) = i := by omega
    rw [hI]
  · rw [if_neg hneg]
    obtain ⟨d, t, hdt, hdig⟩ := natChars_cons i.natAbs
    have hd48 := isDigit_toNat hdig
    have hdq : ¬(d = quoteChar) :=
      char_ne_of_toNat_ne (by rw [(by decide : quoteChar.toNat = 34)]; omega)
    have hdm : ¬(d = minusChar) :=
      char_ne_of_toNat_ne (by rw [(by decide : minusChar.toNat = 45)]; omega)
    rw [hdt, List.cons_append, pVal, if_neg hdq, if_neg hdm, if_pos hdig]
    rw [← List.cons_append, ← hdt, pNat_natChars _ _ h]
    rw [pNumTail, if_neg (by decide : ¬(false = true))]
    have hI : ((i.natAbs : Nat) : Int) = i := by omega
    rw [hI]

theorem pVal_true (fuel : Nat) (rest : List Char) :
    pVal (fuel + 1) ('t' :: 'r' :: 'u' :: 'e' :: rest) = some (.bool true, rest) := by
  rw [pVal]
  simp [pWord, (by decide : ¬(('t' : Char) = quoteChar)),
    (by decide : ¬(('t' : Char) = minusChar)), (by decide : isDigitChar 't' = false)]

theorem pVal_false (fuel : Nat) (rest : List Char) :
    pVal (fuel + 1) ('f' :: 'a' :: 'l' :: 's' :: 'e' :: rest) =
      some (.bool false, rest) := by
  rw [pVal]
  simp [pWord, (by decide : ¬(('f' : Char) = quoteChar)),
    (by decide : ¬(('f' : Char) = minusChar)), (by decide : isDigitChar 'f' = false),
    (by decide : ¬(('f' : Char) = 't'))]

theorem pVal_null (fuel : Nat) (rest : List Char) :
    pVal (fuel + 1) ('n' :: 'u' :: 'l' :: 'l' :: rest) = some (.null, rest) := by
  rw [pVal]
  simp [pWord, (by decide : ¬(('n' : Char) = quoteChar)),
    (by decide : ¬(('n' : Char) = minusChar)), (by decide : isDigitChar 'n' = false),
    (by decide : ¬(('n' : Char) = 't')), (by decide : ¬(('n' : Char) = 'f'))]

/-! ## The parser inverts the serializer -/

theorem nonDigitStart_nil : nonDigitStart [] := trivial

theorem nonDigitStart_cons {c : Char} (h : isDigitChar c = false) (cs : List Char) :
    nonDigitStart (c :: cs) := h

mutual

theorem pVal_strJson (j : Json) (fuel : Nat) (rest : List Char) (h : nonDigitStart rest) :
    pVal (fuel + jsize j) (strJson j ++ rest) = some (j, rest) := by
  cases j with
  | str s =>
    rw [jsize_str, strJson_str]
    have h2 := pVal_strLit fuel s.data rest
    rw [stringMk_data] at h2
    simpa using h2
  | num i =>
    rw [jsize_num, strJson_num]
    exact pVal_num fuel i rest h
  | bool b =>
    cases b with
    | false =>
      rw [jsize_bool, strJson_false]
      simpa using pVal_false fuel rest
    | true =>
      rw [jsize_bool, strJson_true]
      simpa using pVal_true fuel rest
  | null =>
    rw [jsize_null, strJson_null]
    simpa using pVal_null fuel rest
  | arr items =>
    cases items with
    | nil =>
      rw [jsize_arrNil, strJson_arrNil]
      rw [(by simp : ([lbrackChar, rbrackChar] : List Char) ++ rest =
        lbrackChar :: rbrackChar :: rest)]
      rw [pVal, if_neg (by decide : ¬(lbrackChar = quoteChar)),
        if_neg (by decide : ¬(lbrackChar = minusChar)),
        if_neg (by decide : ¬(isDigitChar lbrackChar = true)),
        if_neg (by decide : ¬(lbrackChar = 't')),
        if_neg (by decide : ¬(lbrackChar = 'f')),
        if_neg (by decide : ¬(lbrackChar = 'n')), if_pos rfl]
      rw [pArrTail, if_pos rfl]
    | cons x xs =>
      rw [(by rw [jsize_arrCons]; omega :
        fuel + jsize (Json.arr (x :: xs)) = (fuel + isize x xs) + 1)]
      rw [strJson_arrCons, List.cons_append, List.append_assoc, List.singleton_append]
      rw [pVal, if_neg (by decide : ¬(lbrackChar = quoteChar)),
        if_neg (by decide : ¬(lbrackChar = minusChar)),
        if_neg (by decide : ¬(isDigitChar lbrackChar = true)),
        if_neg (by decide : ¬(lbrackChar = 't')),
        if_neg (by decide : ¬(lbrackChar = 'f')),
        if_neg (by decide : ¬(lbrackChar = 'n')), if_pos rfl]
      obtain ⟨d, t, hdt, hd1, hd2⟩ := strItems_head x xs
      rw [hdt, List.cons_append, pArrTail, if_neg hd1, ← List.cons_append, ← hdt]
      rw [pItems_strItems x xs fuel rest]
      rw [pArrRest]
  | obj members =>
    cases members with
    | nil =>
      rw [jsize_objNil, strJson_objNil]
      rw [(by simp : ([lbraceChar, rbraceChar] : List Char) ++ rest =
        lbraceChar :: rbraceChar :: rest)]
      rw [pVal, if_neg (by decide : ¬(lbraceChar = quoteChar)),
        if_neg (by decide : ¬(lbraceChar = minusChar)),
        if_neg (by decide : ¬(isDigitChar lbraceChar = true)),
        if_neg (by decide : ¬(lbraceChar = 't')),
        if_neg (by decide : ¬(lbraceChar = 'f')),
        if_neg (by decide : ¬(lbraceChar = 'n')),
        if_neg (by decide : ¬(lbraceChar = lbrackChar)), if_pos rfl]
      rw [pObjTail, if_pos rfl]
    | cons kv kvs =>
      rw [(by rw [jsize_objCons]; omega :
        fuel + jsize (Json.obj (kv :: kvs)) = (fuel + msize kv kvs) + 1)]
      rw [strJson_objCons, List.cons_append, List.append_assoc, List.singleton_append]
      rw [pVal, if_neg (by decide : ¬(lbraceChar = quoteChar)),
        if_neg (by decide : ¬(lbraceChar = minusChar)),
        if_neg (by decide : ¬(isDigitChar lbraceChar = true)),
        if_neg (by decide : ¬(lbraceChar = 't')),
        if_neg (by decide : ¬(lbraceChar = 'f')),
        if_neg (by decide : ¬(lbraceChar = 'n')),
        if_neg (by decide : ¬(lbraceChar = lbrackChar)), if_pos rfl]
      obtain ⟨t, hdt⟩ := strMembers_head kv kvs
      rw [hdt, List.cons_append, pObjTail,
        if_neg (by decide : ¬(quoteChar = rbraceChar)), ← List.cons_append, ← hdt]
      rw [pMembers_strMembers kv kvs fuel rest]
      rw [pObjRest]
termination_by sizeOf j
decreasing_by
  all_goals simp_wf <;> omega

theorem pItems_strItems (x : Json) (xs : List Json) (fuel : Nat) (rest : List Char) :
    pItems (fuel + isize x xs) (strItems x xs ++ rbrackChar :: rest) =
      some (x :: xs, rest) := by
  cases xs with
  | nil =>
    rw [(by rw [isize_nil]; omega : fuel + isize x [] = (fuel + jsize x) + 1)]
    rw [strItems_nil, pItems]
    rw [pVal_strJson x fuel (rbrackChar :: rest) (nonDigitStart_cons (by decide) rest)]
    rw [pItemsStep, if_pos rfl]
  | cons y ys =>
    rw [(by rw [isize_cons]; omega :
      fuel + isize x (y :: ys) = ((fuel + isize y ys) + jsize x) + 1)]
    rw [strItems_cons, List.append_assoc, List.cons_append, pItems]
    rw [pVal_strJson x (fuel + isize y ys)
      (commaChar :: (strItems y ys ++ rbrackChar :: rest))
      (nonDigitStart_cons (by decide) _)]
    rw [pItemsStep, if_neg (by decide : ¬(commaChar = rbrackChar)), if_pos rfl]
    rw [(by omega : (fuel + isize y ys) + jsize x = (fuel + jsize x) + isize y ys)]
    rw [pItems_strItems y ys (fuel + jsize x) rest]
    rw [pItemsRest]
termination_by sizeOf x + sizeOf xs
decreasing_by
  all_goals simp_wf <;> omega

theorem pMembers_strMembers (kv : String × Json) (ms : List (String × Json))
    (fuel : Nat) (rest : List Char) :
    pMembers (fuel + msize kv ms) (strMembers kv ms ++ rbraceChar :: rest) =
      some (kv :: ms, rest) := by
  obtain ⟨k, v⟩ := kv
  cases ms with
  | nil =>
    rw [(by rw [msize_nil]; omega : fuel + msize (k, v) [] = (fuel + jsize v) + 1)]
    rw [strMembers_nil]
    simp only [List.cons_append, List.append_assoc, List.singleton_append,
      List.nil_append]
    rw [pMembers, if_pos rfl]
    rw [pStrBody_escChars k.data (colonChar :: (strJson v ++ rbraceChar :: rest))]
    rw [pMemberKey, if_pos rfl]
    rw [pVal_strJson v fuel (rbraceChar :: rest) (nonDigitStart_cons (by decide) rest)]
    rw [pMemberVal, if_pos rfl, stringMk_data]
  | cons m ms1 =>
    rw [(by rw [msize_cons]; omega :
      fuel + msize (k, v) (m :: ms1) = ((fuel + msize m ms1) + jsize v) + 1)]
    rw [strMembers_cons]
    simp only [List.cons_append, List.append_assoc, List.singleton_append,
      List.nil_append]
    rw [pMembers, if_pos rfl]
    rw [pStrBody_escChars k.data
      (colonChar :: (strJson v ++ commaChar :: (strMembers m ms1 ++ rbraceChar :: rest)))]
    rw [pMemberKey, if_pos rfl]
    rw [pVal_strJson v (fuel + msize m ms1)
      (commaChar :: (strMembers m ms1 ++ rbraceChar :: rest))
      (nonDigitStart_cons (by decide) _)]
    rw [pMemberVal, if_neg (by decide : ¬(commaChar = rbraceChar)), if_pos rfl]
    rw [(by omega : (fuel + msize m ms1) + jsize v = (fuel + jsize v) + msize m ms1)]
    rw [pMembers_strMembers m ms1 (fuel + jsize v) rest]
    rw [pMembersRest, stringMk_data]
termination_by sizeOf kv + sizeOf ms
decreasing_by
  all_goals simp_wf <;> omega

end

/-! ## The document-level fuel is sufficient -/

theorem natChars_length_pos (n : Nat) : 1 ≤ (natChars n).length := by
  obtain ⟨d, t, hdt, _⟩ := natChars_cons n
  rw [hdt]
  simp

mutual

theorem jsize_le_length (j : Json) : jsize j ≤ (strJson j).length := by
  cases j with
  | str s =>
    rw [jsize_str, strJson_str]
    simp
  | num i =>
    rw [jsize_num, strJson_num, intChars]
    by_cases hneg : i < 0
    · rw [if_pos hneg]
      simp
    · rw [if_neg hneg]
      exact natChars_length_pos i.natAbs
  | bool b =>
    cases b with
    | false => rw [jsize_bool, strJson_false]; simp
    | true => rw [jsize_bool, strJson_true]; simp
  | null => rw [jsize_null, strJson_null]; simp
  | arr items =>
    cases items with
    | nil => rw [jsize_arrNil, strJson_arrNil]; simp
    | cons x xs =>
      rw [jsize_arrCons, strJson_arrCons]
      have := isize_le_length x xs
      simp
      omega
  | obj members =>
    cases members with
    | nil => rw [jsize_objNil, strJson_objNil]; simp
    | cons kv kvs =>
      rw [jsize_objCons, strJson_objCons]
      have := msize_le_length kv kvs
      simp
      omega
termination_by sizeOf j
decreasing_by
  all_goals simp_wf <;> omega

theorem isize_le_length (x : Json) (xs : List Json) :
    isize x xs ≤ (strItems x xs).length + 1 := by
  cases xs with
  | nil =>
    rw [isize_nil, strItems_nil]
    have := jsize_le_length x
    omega
  | cons y ys =>
    rw [isize_cons, strItems_cons]
    have h1 := jsize_le_length x
    have h2 := isize_le_length y ys
    simp
    omega
termination_by sizeOf x + sizeOf xs
decreasing_by
  all_goals simp_wf <;> omega

theorem msize_le_length (kv : String × Json) (ms : List (String × Json)) :
    msize kv ms ≤ (strMembers kv ms).length + 1 := by
  obtain ⟨k, v⟩ := kv
  cases ms with
  | nil =>
    rw [msize_nil, strMembers_nil]
    have := jsize_le_length v
    simp
    omega
  | cons m ms1 =>
    rw [msize_cons, strMembers_cons]
    have h1 := jsize_le_length v
    have h2 := msize_le_length m ms1
    simp
    omega
termination_by sizeOf kv + sizeOf ms
decreasing_by
  all_goals simp_wf <;> omega

end

/-! ## Parsing inverts serialization at document level -/

theorem jsonParseChars_strJson (j : Json) : jsonParseChars (strJson j) = some j := by
  rw [jsonParseChars]
  have hle := jsize_le_length j
  rw [(by omega : (strJson j).length = ((strJson j).length - jsize j) + jsize j)]
  have h := pVal_strJson j ((strJson j).length - jsize j) [] nonDigitStart_nil
  rw [List.append_nil] at h
  rw [h]

theorem jsonParse_jsonStringify (j : Json) : jsonParse (jsonStringify j) = some j := by
  rw [jsonParse, jsonStringify]
  exact jsonParseChars_strJson j

/-! ## UTF-8 round trip -/

theorem utf8Char_length_pos (c : Char) : 1 ≤ (utf8Char c).length := by
  simp only [utf8Char]
  split
  · simp
  · split
    · simp
    · split <;> simp

theorem length_le_utf8Encode (cs : List Char) : cs.length ≤ (utf8Encode cs).length := by
  induction cs with
  | nil => simp [utf8Encode]
  | cons c cs ih =>
    rw [utf8Encode]
    have := utf8Char_length_pos c
    simp
    omega

theorem utf8Encode_lt_256 (cs : List Char) : ∀ b ∈ utf8Encode cs, b < 256 := by
  induction cs with
  | nil => simp [utf8Encode]
  | cons c cs ih =>
    intro b hb
    rw [utf8Encode] at hb
    rcases List.mem_append.mp hb with hb1 | hb2
    · have hv := char_valid c
      by_cases h1 : c.toNat < 128
      · simp [utf8Char, h1] at hb1
        omega
      · by_cases h2 : c.toNat < 2048
        · simp [utf8Char, h1, h2] at hb1
          rcases hb1 with h | h <;> omega
        · by_cases h3 : c.toNat < 65536
          · simp [utf8Char, h1, h2, h3] at hb1
            rcases hb1 with h | h | h <;> omega
          · simp [utf8Char, h1, h2, h3] at hb1
            rcases hb1 with h | h | h | h <;> omega
    · exact ih b hb2

theorem utf8DecodeAux_encode (cs : List Char) (fuel : Nat) :
    utf8DecodeAux (fuel + cs.length) (utf8Encode cs) = some cs := by
  induction cs generalizing fuel with
  | nil =>
    rw [utf8Encode]
    rw [utf8DecodeAux]
  | cons c cs ih =>
    rw [utf8Encode, List.length_cons,
      (by omega : fuel + (cs.length + 1) = (fuel + cs.length) + 1)]
    have hv := char_valid c
    by_cases h1 : c.toNat < 128
    · rw [(by simp [utf8Char, h1] : utf8Char c = [c.toNat])]
      simp only [List.cons_append, List.nil_append]
      rw [utf8DecodeAux, if_pos h1, ih, utf8DecodeRest, Char.ofNat_toNat]
    · by_cases h2 : c.toNat < 2048
      · rw [(by simp [utf8Char, h1, h2] :
          utf8Char c = [192 + c.toNat / 64, 128 + c.toNat % 64])]
        simp only [List.cons_append, List.nil_append]
        rw [utf8DecodeAux, if_neg (by omega), if_neg (by omega), if_pos (by omega)]
        rw [utf8Decode2, if_pos (by omega), ih, utf8DecodeRest]
        rw [(by omega : (192 + c.toNat / 64 - 192) * 64 + (128 + c.toNat % 64 - 128) =
          c.toNat), Char.ofNat_toNat]
      · by_cases h3 : c.toNat < 65536
        · rw [(by simp [utf8Char, h1, h2, h3] :
            utf8Char c =
              [224 + c.toNat / 4096, 128 + c.toNat / 64 % 64, 128 + c.toNat % 64])]
          simp only [List.cons_append, List.nil_append]
          rw [utf8DecodeAux, if_neg (by omega), if_neg (by omega), if_neg (by omega),
            if_pos (by omega)]
          rw [utf8Decode3, if_pos (by omega), if_pos (by omega), ih, utf8DecodeRest]
          rw [(by omega :
            (224 + c.toNat / 4096 - 224) * 4096 + (128 + c.toNat / 64 % 64 - 128) * 64 +
              (128 + c.toNat % 64 - 128) = c.toNat), Char.ofNat_toNat]
        · rw [(by simp [utf8Char, h1, h2, h3] :
            utf8Char c =
              [240 + c.toNat / 262144, 128 + c.toNat / 4096 % 64,
               128 + c.toNat / 64 % 64, 128 + c.toNat % 64])]
          simp only [List.cons_append, List.nil_append]
          rw [utf8DecodeAux, if_neg (by omega), if_neg (by omega), if_neg (by omega),
            if_neg (by omega), if_pos (by omega)]
          rw [utf8Decode4, if_pos (by omega), if_pos (by omega), ih, utf8DecodeRest]
          rw [(by omega :
            (240 + c.toNat / 262144 - 240) * 262144 + (128 + c.toNat / 4096 % 64 - 128) *
              4096 + (128 + c.toNat / 64 % 64 - 128) * 64 + (128 + c.toNat % 64 - 128) =
              c.toNat), Char.ofNat_toNat]

theorem utf8Decode_utf8Encode (cs : List Char) : utf8Decode (utf8Encode cs) = some cs := by
  rw [utf8Decode]
  have hle := length_le_utf8Encode cs
  rw [(by omega :
    (utf8Encode cs).length = ((utf8Encode cs).length - cs.length) + cs.length)]
  exact utf8DecodeAux_encode cs _

/-! ## Base64 round trip -/

theorem b64Val_b64Char : ∀ n, n < 64 → b64Val (b64Char n) = some n := by decide

theorem b64Char_ne_pad : ∀ n, n < 64 → ¬(b64Char n = padChar) := by decide

theorem b64Decode_b64Encode :
    ∀ (bs : List Nat), (∀ b ∈ bs, b < 256) → b64Decode (b64Encode bs) = some bs
  | [], _ => by
    rw [b64Encode, b64Decode]
  | [a], h => by
    have ha : a < 256 := h a (by simp)
    rw [b64Encode, b64Decode,
      b64Val_b64Char (a / 4) (by omega), b64Val_b64Char (a % 4 * 16) (by omega)]
    simp only [if_pos rfl, and_self, if_true, reduceIte]
    rw [(by omega : a / 4 * 4 + a % 4 * 16 / 16 = a)]
  | [a, b], h => by
    have ha : a < 256 := h a (by simp)
    have hb : b < 256 := h b (by simp)
    rw [b64Encode, b64Decode,
      b64Val_b64Char (a / 4) (by omega), b64Val_b64Char (a % 4 * 16 + b / 16) (by omega)]
    simp only [b64Char_ne_pad (b % 16 * 4) (by omega), if_false, reduceIte,
      b64Val_b64Char (b % 16 * 4) (by omega), if_pos rfl]
    rw [(by omega : a / 4 * 4 + (a % 4 * 16 + b / 16) / 16 = a),
      (by omega : (a % 4 * 16 + b / 16) % 16 * 16 + b % 16 * 4 / 4 = b)]
  | a :: b :: c :: rest, h => by
    have ha : a < 256 := h a (by simp)
    have hb : b < 256 := h b (by simp)
    have hc : c < 256 := h c (by simp)
    have hrest := b64Decode_b64Encode rest (fun x hx => h x (by simp [hx]))
    rw [b64Encode, b64Decode,
      b64Val_b64Char (a / 4) (by omega), b64Val_b64Char (a % 4 * 16 + b / 16) (by omega)]
    simp only [b64Char_ne_pad (b % 16 * 4 + c / 64) (by omega), if_false, reduceIte,
      b64Val_b64Char (b % 16 * 4 + c / 64) (by omega),
      b64Char_ne_pad (c % 64) (by omega),
      b64Val_b64Char (c % 64) (by omega)]
    rw [hrest]
    rw [(by omega : a / 4 * 4 + (a % 4 * 16 + b / 16) / 16 = a),
      (by omega : (a % 4 * 16 + b / 16) % 16 * 16 + (b % 16 * 4 + c / 64) / 4 = b),
      (by omega : (b % 16 * 4 + c / 64) % 4 * 64 + c % 64 = c)]
termination_by bs => bs.length
decreasing_by
  simp_wf
  omega

/-! ## The full body encode/decode pipeline -/

theorem stringData_mk (l : List Char) : (String.mk l).data = l := rfl

theorem decodeBody_encodeBody (j : Json) : decodeBody (encodeBody j) = some j := by
  rw [decodeBody, encodeBody, stringData_mk]
  simp only [b64Decode_b64Encode _ (utf8Encode_lt_256 _), utf8Decode_utf8Encode,
    jsonParseChars_strJson]

/-! ## Reading payloads back from their JSON images -/

theorem peelWith_cons {α : Type} (k : String) (f : Json → Option α) (v : Json)
    (r : List (String × Json)) (a : α) (hf : f v = some a) :
    peelWith k f ((k, v) :: r) = some (a, r) := by
  simp [peelWith, hf]

theorem peelOptWith_hit {α : Type} (k : String) (f : Json → Option α) (v : Json)
    (r : List (String × Json)) (a : α) (hf : f v = some a) :
    peelOptWith k f ((k, v) :: r) = some (some a, r) := by
  simp [peelOptWith, hf]

theorem peelOptWith_miss {α : Type} (k : String) (f : Json → Option α) (k1 : String)
    (v : Json) (r : List (String × Json)) (hne : ¬(k1 = k)) :
    peelOptWith k f ((k1, v) :: r) = some (none, (k1, v) :: r) := by
  simp [peelOptWith, hne]

theorem peelOptWith_nil {α : Type} (k : String) (f : Json → Option α) :
    peelOptWith k f [] = some (none, []) := rfl

theorem fromJson_toJson_coordinates (c : ICoordinates) :
    ICoordinates.fromJson c.toJson = some c := by
  obtain ⟨lat, lng⟩ := c
  simp [ICoordinates.toJson, ICoordinates.fromJson, peelWith, jsonToNum]

theorem fromJson_toJson_vehicle (v : IVehicle) : IVehicle.fromJson v.toJson = some v := by
  obtain ⟨lp⟩ := v
  cases lp with
  | none => simp [IVehicle.toJson, IVehicle.fromJson, optMember, peelOptWith]
  | some s => simp [IVehicle.toJson, IVehicle.fromJson, optMember, peelOptWith, jsonToStr]

theorem fromJson_toJson_courier (c : ICourier) : ICourier.fromJson c.toJson = some c := by
  obtain ⟨nm, ph, pu, co, ve⟩ := c
  cases ph <;> cases pu <;> cases co <;> rcases ve with _ | ⟨_ | lp⟩ <;> rfl

theorem fromJson_toJson_track (t : ITrack) : ITrack.fromJson t.toJson = some t := by
  obtain ⟨st, msg, ca, co⟩ := t
  cases msg <;>
    rcases co with _ | ⟨nm, _ | ph, _ | pu, _ | cco, _ | ⟨_ | lp⟩⟩ <;> rfl

theorem ofStr_toStr_status (s : HZNDeliveryStatus) :
    HZNDeliveryStatus.ofStr s.toStr = some s := by
  cases s <;> rfl

theorem jsonToStatus_toStr (s : HZNDeliveryStatus) :
    jsonToStatus (.str s.toStr) = some s := by
  rw [jsonToStatus]
  exact ofStr_toStr_status s

theorem jsonStrList_map (l : List String) : jsonStrList (l.map Json.str) = some l := by
  induction l with
  | nil => rfl
  | cons s l ih =>
    rw [List.map_cons, jsonStrList, ih]

theorem jsonToStrList_map (l : List String) :
    jsonToStrList (Json.arr (l.map Json.str)) = some l := by
  rw [jsonToStrList]
  exact jsonStrList_map l

theorem ofStr_toStr_category (c : LogCategory) : LogCategory.ofStr c.toStr = some c := by
  cases c <;> rfl

theorem ofStr_toStr_logType (t : LogType) : LogType.ofStr t.toStr = some t := by
  cases t <;> rfl

theorem ofStr_toStr_logTarget (t : LogTarget) : LogTarget.ofStr t.toStr = some t := by
  cases t <;> rfl

theorem agentExtras_map (l : List (String × String)) :
    agentExtras (l.map (fun kv => (kv.1, Json.str kv.2))) = some l := by
  induction l with
  | nil => rfl
  | cons kv l ih =>
    obtain ⟨k, v⟩ := kv
    rw [List.map_cons, agentExtras, ih]

theorem fromJson_toJson_agent (a : IAgent) : IAgent.fromJson a.toJson = some a := by
  obtain ⟨nm, extra⟩ := a
  rw [IAgent.toJson]
  cases extra with
  | nil => rfl
  | cons kv l =>
    obtain ⟨k, v⟩ := kv
    rw [IAgent.fromJson, List.map_cons, agentExtras, agentExtras_map]
    simp

theorem fromJson_toJson_insertTracking
    (p : IRequestPayloadInsertToDeliveryTracking) :
    IRequestPayloadInsertToDeliveryTracking.fromJson p.toJson = some p := by
  obtain ⟨i, st, tu, tr, ph⟩ := p
  cases tu <;> cases ph <;>
    simp [IRequestPayloadInsertToDeliveryTracking.toJson,
      IRequestPayloadInsertToDeliveryTracking.fromJson, optMember, peelWith,
      peelOptWith, jsonToStr, jsonToStatus_toStr, jsonToStrList_map,
      fromJson_toJson_track,
      (by decide : ¬(("track" : String) = "trackingUrl"))]

theorem fromJson_toJson_isCancellable (p : IRequestPayloadIsCancellable) :
    IRequestPayloadIsCancellable.fromJson p.toJson = some p := by
  obtain ⟨d⟩ := p
  rfl

theorem fromJson_toJson_log (p : IRequestPayloadLog) :
    IRequestPayloadLog.fromJson p.toJson = some p := by
  obtain ⟨ci, ca, ty, ta, ⟨hi, hn⟩, lg, ag⟩ := p
  simp [IRequestPayloadLog.toJson, IRequestPayloadLog.fromJson, peelWith, jsonToStr,
    ofStr_toStr_category, ofStr_toStr_logType, ofStr_toStr_logTarget,
    fromJson_toJson_agent]

theorem fromJson_toJson_billing (p : IRequestPayloadBilling) :
    IRequestPayloadBilling.fromJson p.toJson = some p := by
  obtain ⟨d, ca⟩ := p
  rfl

theorem fromJson_toJson_changeStatus (p : IRequestChangeDeliveryStatus) :
    IRequestChangeDeliveryStatus.fromJson p.toJson = some p := by
  obtain ⟨d, st⟩ := p
  simp [IRequestChangeDeliveryStatus.toJson, IRequestChangeDeliveryStatus.fromJson,
    peelWith, jsonToStr, jsonToStatus_toStr]

theorem fromJson_toJson_simulateWebhook (p : IRequestSimulateWebhook) :
    IRequestSimulateWebhook.fromJson p.toJson = some p := by
  obtain ⟨d, su, se, ln⟩ := p
  rfl

theorem headKeyNe_optMember {k k2 : String} (h2 : ¬(k2 = k)) (o : Option Json)
    {rest : List (String × Json)} (h : headKeyNe k rest) :
    headKeyNe k (optMember k2 o ++ rest) := by
  cases o with
  | none => simpa [optMember] using h
  | some v => exact h2

theorem headKeyNe_optMember1 {k k2 : String} (h2 : ¬(k2 = k)) (o : Option Json) :
    headKeyNe k (optMember k2 o) := by
  cases o with
  | none => trivial
  | some v => exact h2

theorem peelOptWith_optMember {α : Type} (k : String) (f : Json → Option α) (g : α → Json)
    (o : Option α) (rest : List (String × Json)) (hfg : ∀ a, f (g a) = some a)
    (hne : headKeyNe k rest) :
    peelOptWith k f (optMember k (o.map g) ++ rest) = some (o, rest) := by
  cases o with
  | none =>
    cases rest with
    | nil => rfl
    | cons hd tl =>
      obtain ⟨k1, v⟩ := hd
      simpa [optMember] using peelOptWith_miss k f k1 v tl hne
  | some a =>
    simpa [optMember] using peelOptWith_hit k f (g a) rest a (hfg a)

theorem peelOptWith_optMember1 {α : Type} (k : String) (f : Json → Option α)
    (g : α → Json) (o : Option α) (hfg : ∀ a, f (g a) = some a) :
    peelOptWith k f (optMember k (o.map g)) = some (o, []) := by
  have h := peelOptWith_optMember k f g o [] hfg trivial
  simpa using h

theorem fromJson_toJson_changeData (p : IRequestChangeDeliveryData) :
    IRequestChangeDeliveryData.fromJson p.toJson = some p := by
  obtain ⟨d, ni, na, ns, dp, si, tu⟩ := p
  have n6 : headKeyNe "signature" (optMember "trackingUrl" (tu.map Json.str)) :=
    headKeyNe_optMember1 (by decide) _
  have n5 : headKeyNe "deliveryProofs"
      (optMember "signature" (si.map Json.str) ++
        optMember "trackingUrl" (tu.map Json.str)) :=
    headKeyNe_optMember (by decide) _ (headKeyNe_optMember1 (by decide) _)
  have n4 : headKeyNe "newDeliveryStatus"
      (optMember "deliveryProofs" (dp.map (fun l => Json.arr (l.map Json.str))) ++
        (optMember "signature" (si.map Json.str) ++
          optMember "trackingUrl" (tu.map Json.str))) :=
    headKeyNe_optMember (by decide) _
      (headKeyNe_optMember (by decide) _ (headKeyNe_optMember1 (by decide) _))
  have n3 : headKeyNe "newAmount"
      (optMember "newDeliveryStatus" (ns.map (fun s => Json.str s.toStr)) ++
        (optMember "deliveryProofs" (dp.map (fun l => Json.arr (l.map Json.str))) ++
          (optMember "signature" (si.map Json.str) ++
            optMember "trackingUrl" (tu.map Json.str)))) :=
    headKeyNe_optMember (by decide) _
      (headKeyNe_optMember (by decide) _
        (headKeyNe_optMember (by decide) _ (headKeyNe_optMember1 (by decide) _)))
  have n2 : headKeyNe "newDeliveryId"
      (optMember "newAmount" (na.map Json.num) ++
        (optMember "newDeliveryStatus" (ns.map (fun s => Json.str s.toStr)) ++
          (optMember "deliveryProofs" (dp.map (fun l => Json.arr (l.map Json.str))) ++
            (optMember "signature" (si.map Json.str) ++
              optMember "trackingUrl" (tu.map Json.str))))) :=
    headKeyNe_optMember (by decide) _
      (headKeyNe_optMember (by decide) _
        (headKeyNe_optMember (by decide) _
          (headKeyNe_optMember (by decide) _ (headKeyNe_optMember1 (by decide) _))))
  have h6 : peelOptWith "trackingUrl" jsonToStr
      (optMember "trackingUrl" (tu.map Json.str)) = some (tu, []) :=
    peelOptWith_optMember1 _ _ _ _ (fun a => rfl)
  have h5 : peelOptWith "signature" jsonToStr
      (optMember "signature" (si.map Json.str) ++
        optMember "trackingUrl" (tu.map Json.str)) =
      some (si, optMember "trackingUrl" (tu.map Json.str)) :=
    peelOptWith_optMember _ _ _ _ _ (fun a => rfl) n6
  have h4 : peelOptWith "deliveryProofs" jsonToStrList
      (optMember "deliveryProofs" (dp.map (fun l => Json.arr (l.map Json.str))) ++
        (optMember "signature" (si.map Json.str) ++
          optMember "trackingUrl" (tu.map Json.str))) =
      some (dp, optMember "signature" (si.map Json.str) ++
        optMember "trackingUrl" (tu.map Json.str)) :=
    peelOptWith_optMember _ _ _ _ _ jsonToStrList_map
      (headKeyNe_optMember (by decide) _ (headKeyNe_optMember1 (by decide) _))
  have h3 : peelOptWith "newDeliveryStatus" jsonToStatus
      (optMember "newDeliveryStatus" (ns.map (fun s => Json.str s.toStr)) ++
        (optMember "deliveryProofs" (dp.map (fun l => Json.arr (l.map Json.str))) ++
          (optMember "signature" (si.map Json.str) ++
            optMember "trackingUrl" (tu.map Json.str)))) =
      some (ns, optMember "deliveryProofs" (dp.map (fun l => Json.arr (l.map Json.str))) ++
        (optMember "signature" (si.map Json.str) ++
          optMember "trackingUrl" (tu.map Json.str))) :=
    peelOptWith_optMember _ _ _ _ _ jsonToStatus_toStr n4
  have h2 : peelOptWith "newAmount" jsonToNum
      (optMember "newAmount" (na.map Json.num) ++
        (optMember "newDeliveryStatus" (ns.map (fun s => Json.str s.toStr)) ++
          (optMember "deliveryProofs" (dp.map (fun l => Json.arr (l.map Json.str))) ++
            (optMember "signature" (si.map Json.str) ++
              optMember "trackingUrl" (tu.map Json.str))))) =
      some (na, optMember "newDeliveryStatus" (ns.map (fun s => Json.str s.toStr)) ++
        (optMember "deliveryProofs" (dp.map (fun l => Json.arr (l.map Json.str))) ++
          (optMember "signature" (si.map Json.str) ++
            optMember "trackingUrl" (tu.map Json.str)))) :=
    peelOptWith_optMember _ _ _ _ _ (fun a => rfl) n3
  have h1 : peelOptWith "newDeliveryId" jsonToStr
      (optMember "newDeliveryId" (ni.map Json.str) ++
        (optMember "newAmount" (na.map Json.num) ++
          (optMember "newDeliveryStatus" (ns.map (fun s => Json.str s.toStr)) ++
            (optMember "deliveryProofs" (dp.map (fun l => Json.arr (l.map Json.str))) ++
              (optMember "signature" (si.map Json.str) ++
                optMember "trackingUrl" (tu.map Json.str)))))) =
      some (ni, optMember "newAmount" (na.map Json.num) ++
        (optMember "newDeliveryStatus" (ns.map (fun s => Json.str s.toStr)) ++
          (optMember "deliveryProofs" (dp.map (fun l => Json.arr (l.map Json.str))) ++
            (optMember "signature" (si.map Json.str) ++
              optMember "trackingUrl" (tu.map Json.str))))) :=
    peelOptWith_optMember _ _ _ _ _ (fun a => rfl) n2
  simp [IRequestChangeDeliveryData.toJson, IRequestChangeDeliveryData.fromJson,
    peelWith, jsonToStr, h1, h2, h3, h4, h5, h6]

theorem payloadFromJson_toJson (P : Payload) : payloadFromJson P.kind P.toJson = some P := by
  cases P <;>
    simp [Payload.kind, Payload.toJson, payloadFromJson,
      fromJson_toJson_insertTracking,
      fromJson_toJson_isCancellable,
      fromJson_toJson_log,
      fromJson_toJson_billing,
      fromJson_toJson_changeStatus,
      fromJson_toJson_changeData,
      fromJson_toJson_simulateWebhook]

/-! # Claim theorems -/

/-- C1: for every payload of any of the known variants and every project,
location, queue and URL, the `body` of the descriptor built by
`createRequest` is the base64 encoding of the payload's JSON
serialization (as UTF-8 bytes), and decoding it (base64, then JSON)
yields the payload's JSON structure exactly; interpreting that structure
as the payload's variant recovers the payload itself, so no field is
dropped or reordered in a way that changes semantic content. -/
theorem c1_body_base64_json_roundtrip (P : Payload) (project location queue url : String) :
    ((mkDeliveryTaskCreator project).createRequest P.toJson location queue
          url).task.httpRequest.body =
        String.mk (b64Encode (utf8Encode (jsonStringify P.toJson).data)) ∧
      decodeBody
          (((mkDeliveryTaskCreator project).createRequest P.toJson location queue
            url).task.httpRequest.body) = some P.toJson ∧
      decodePayload P.kind
          (((mkDeliveryTaskCreator project).createRequest P.toJson location queue
            url).task.httpRequest.body) = some P := by
  refine ⟨rfl, decodeBody_encodeBody P.toJson, ?_⟩
  show decodePayload P.kind (encodeBody P.toJson) = some P
  rw [decodePayload, decodeBody_encodeBody]
  exact payloadFromJson_toJson P

/-- C2 counterexample: in the earlier revision, `simulateWebhook` with the
project `hzn-production` does not address the production run URL; it uses
the project's Cloud-Functions URL, so the claim is false as stated for
that revision. -/
theorem c2_counterexample :
    ((mkDeliveryTaskCreatorV0 "hzn-production").simulateWebhookRequest
        sampleSimulateWebhook).task.httpRequest.url ≠
      "https://delivery-partners-queue-run-production-vtbootglhq-uc.a.run.app/v1/webhooks/simulate" := by
  decide

/-- C2 (amended): in the current revision, `simulateWebhook` selects its
destination URL from the builder's project: `hzn-production` selects the
production URL, `hzn-sandbox` the sandbox URL, and any other project the
development URL; the earlier revision instead always uses the fixed
`https://us-central1-{project}.cloudfunctions.net/simulateWebhook` URL. -/
theorem c2_simulateWebhook_url_selection (p : IRequestSimulateWebhook) (project : String) :
    ((mkDeliveryTaskCreator "hzn-production").simulateWebhookRequest
          p).task.httpRequest.url =
        "https://delivery-partners-queue-run-production-vtbootglhq-uc.a.run.app/v1/webhooks/simulate" ∧
      ((mkDeliveryTaskCreator "hzn-sandbox").simulateWebhookRequest
          p).task.httpRequest.url =
        "https://delivery-partners-queue-run-sandbox-adchrwkija-uc.a.run.app/v1/webhooks/simulate" ∧
      (¬(project = "hzn-production") → ¬(project = "hzn-sandbox") →
        ((mkDeliveryTaskCreator project).simulateWebhookRequest p).task.httpRequest.url =
          "https://delivery-partners-queue-run-development-ai2gu4pljq-uc.a.run.app/v1/webhooks/simulate") ∧
      ((mkDeliveryTaskCreatorV0 project).simulateWebhookRequest p).task.httpRequest.url =
        "https://us-central1-" ++ project ++ ".cloudfunctions.net/simulateWebhook" := by
  refine ⟨rfl, rfl, ?_, rfl⟩
  intro h1 h2
  show simulateWebhookUrl project = _
  unfold simulateWebhookUrl
  split <;> simp_all

/-- C2 witness: the amended claim evaluated at a concrete payload and the
concrete project `demo-project`. -/
theorem c2_simulateWebhook_url_selection_witness :
    ((mkDeliveryTaskCreator "hzn-production").simulateWebhookRequest
          sampleSimulateWebhook).task.httpRequest.url =
        "https://delivery-partners-queue-run-production-vtbootglhq-uc.a.run.app/v1/webhooks/simulate" ∧
      ((mkDeliveryTaskCreator "hzn-sandbox").simulateWebhookRequest
          sampleSimulateWebhook).task.httpRequest.url =
        "https://delivery-partners-queue-run-sandbox-adchrwkija-uc.a.run.app/v1/webhooks/simulate" ∧
      (¬(("demo-project" : String) = "hzn-production") →
        ¬(("demo-project" : String) = "hzn-sandbox") →
        ((mkDeliveryTaskCreator "demo-project").simulateWebhookRequest
            sampleSimulateWebhook).task.httpRequest.url =
          "https://delivery-partners-queue-run-development-ai2gu4pljq-uc.a.run.app/v1/webhooks/simulate") ∧
      ((mkDeliveryTaskCreatorV0 "demo-project").simulateWebhookRequest
          sampleSimulateWebhook).task.httpRequest.url =
        "https://us-central1-" ++ "demo-project" ++ ".cloudfunctions.net/simulateWebhook" :=
  c2_simulateWebhook_url_selection sampleSimulateWebhook "demo-project"

/-- C3: for every operation and payload, when the external enqueue call
fails, the failure is caught locally, logged with the operation's error
label, and returned to the caller as the result value; a failing enqueue
never yields a task name. -/
theorem c3_enqueue_failure_is_caught (o : Op) (c : DeliveryTaskCreator)
    (p : o.PayloadType) (createTask : TaskRequest → Except String String) (e : String)
    (h : createTask (o.request c p) = .error e) :
    o.run c p createTask = (.errorValue e, [o.errLabel ++ e]) ∧
      ∀ name, (o.run c p createTask).1 ≠ .taskName name := by
  cases o <;>
    simp_all [Op.run, Op.request, Op.errLabel, runCreateTask,
      DeliveryTaskCreator.insertToDeliveryTracking,
      DeliveryTaskCreator.updateIsCancellable,
      DeliveryTaskCreator.insertLog,
      DeliveryTaskCreator.forwardingWebhook,
      DeliveryTaskCreator.createBilling,
      DeliveryTaskCreator.changeDeliveryStatus,
      DeliveryTaskCreator.changeDeliveryData,
      DeliveryTaskCreator.simulateWebhook]

/-- C3 witness: a concrete failing enqueue on the `updateIsCancellable`
operation is returned as an error value and is not a task name. -/
theorem c3_enqueue_failure_is_caught_witness :
    Op.run .updateIsCancellable (mkDeliveryTaskCreator "demo-project")
        sampleIsCancellable (fun _ => .error "enqueue failed") =
      (.errorValue "enqueue failed", ["Error updateIsCancellable: " ++ "enqueue failed"]) ∧
      ∀ name,
        (Op.run .updateIsCancellable (mkDeliveryTaskCreator "demo-project")
            sampleIsCancellable (fun _ => .error "enqueue failed")).1 ≠
          .taskName name :=
  c3_enqueue_failure_is_caught .updateIsCancellable (mkDeliveryTaskCreator "demo-project")
    sampleIsCancellable (fun _ => .error "enqueue failed") "enqueue failed" rfl

/-- C4: the destination queue path of every built descriptor is exactly
`projects/{project}/locations/{location}/queues/{queue}`. -/
theorem c4_queue_path (project : String) (payload : Json)
    (location queue url : String) :
    ((mkDeliveryTaskCreator project).createRequest payload location queue url).parent =
      "projects/" ++ project ++ "/locations/" ++ location ++ "/queues/" ++ queue := rfl

/-- C5: for every builder constructed with project `p`, every operation
and every payload, the identity-token assertion of the built descriptor
is `p@appspot.gserviceaccount.com`. -/
theorem c5_service_account_email (project : String) (o : Op) (p : o.PayloadType) :
    (Op.request o (mkDeliveryTaskCreator project)
          p).task.httpRequest.oidcToken.serviceAccountEmail =
      project ++ "@appspot.gserviceaccount.com" := by
  cases o <;> rfl

/-- C6: for every operation and payload, the headers of the built
descriptor contain `Content-Type: application/json`. -/
theorem c6_content_type_header (project : String) (o : Op) (p : o.PayloadType) :
    ("Content-Type", "application/json") ∈
      (Op.request o (mkDeliveryTaskCreator project) p).task.httpRequest.headers := by
  cases o <;> exact List.mem_singleton.mpr rfl

/-- C7: every operation addresses its fixed queue name in the fixed
region `asia-east1`, independently of the payload and of the project; in
particular `insertLog` uses `insert-log` and `changeDeliveryStatus` uses
`change-delivery-status`. -/
theorem c7_fixed_queue_and_region :
    (∀ (o : Op) (project : String) (p : o.PayloadType),
      (Op.request o (mkDeliveryTaskCreator project) p).parent =
        queuePath project "asia-east1" o.queueName) ∧
      Op.queueName .insertLog = "insert-log" ∧
      Op.queueName .changeDeliveryStatus = "change-delivery-status" := by
  refine ⟨fun o project p => ?_, rfl, rfl⟩
  cases o <;> rfl

/-- C8: the generic request builders of the earlier and of the current
revision are extensionally equal: for every project, payload, location,
queue and URL they produce identical task descriptors. -/
theorem c8_createRequest_revisions_agree (project : String) (payload : Json)
    (location queue url : String) :
    (mkDeliveryTaskCreatorV0 project).createRequest payload location queue url =
      (mkDeliveryTaskCreator project).createRequest payload location queue url := rfl

/-- C9: every descriptor built by any operation of the current revision,
and by the earlier revision's generic builder, carries the HTTP method
`POST`. -/
theorem c9_method_always_post :
    (∀ (o : Op) (project : String) (p : o.PayloadType),
      (Op.request o (mkDeliveryTaskCreator project) p).task.httpRequest.httpMethod =
        "POST") ∧
      ∀ (project : String) (payload : Json) (location queue url : String),
        ((mkDeliveryTaskCreatorV0 project).createRequest payload location queue
            url).task.httpRequest.httpMethod = "POST" := by
  refine ⟨fun o project p => ?_, fun _ _ _ _ _ => rfl⟩
  cases o <;> rfl

/-- C10: for the same tracking payload, `insertToDeliveryTracking` and
`forwardingWebhook` build descriptors with identical bodies, methods,
headers and identity-token assertions, differing only in the destination
URL and the queue embedded in the queue path. -/
theorem c10_tracking_forwarding_agree (project : String)
    (p : IRequestPayloadInsertToDeliveryTracking) :
    ((mkDeliveryTaskCreator project).insertToDeliveryTrackingRequest
          p).task.httpRequest.body =
        ((mkDeliveryTaskCreator project).forwardingWebhookRequest p).task.httpRequest.body ∧
      ((mkDeliveryTaskCreator project).insertToDeliveryTrackingRequest
          p).task.httpRequest.httpMethod =
        ((mkDeliveryTaskCreator project).forwardingWebhookRequest
          p).task.httpRequest.httpMethod ∧
      ((mkDeliveryTaskCreator project).insertToDeliveryTrackingRequest
          p).task.httpRequest.headers =
        ((mkDeliveryTaskCreator project).forwardingWebhookRequest p).task.httpRequest.headers ∧
      ((mkDeliveryTaskCreator project).insertToDeliveryTrackingRequest
          p).task.httpRequest.oidcToken =
        ((mkDeliveryTaskCreator project).forwardingWebhookRequest
          p).task.httpRequest.oidcToken ∧
      ((mkDeliveryTaskCreator project).insertToDeliveryTrackingRequest p).parent =
        queuePath project "asia-east1" "insert-to-delivery-tracking-collection-tmp" ∧
      ((mkDeliveryTaskCreator project).forwardingWebhookRequest p).parent =
        queuePath project "asia-east1" "forwarding-webhook" ∧
      ((mkDeliveryTaskCreator project).insertToDeliveryTrackingRequest
          p).task.httpRequest.url =
        "https://us-central1-" ++ project ++
          ".cloudfunctions.net/insertToDeliveryTrackingCollection" ∧
      ((mkDeliveryTaskCreator project).forwardingWebhookRequest p).task.httpRequest.url =
        "https://us-central1-" ++ project ++ ".cloudfunctions.net/forwardingWebhook" :=
  ⟨rfl, rfl, rfl, rfl, rfl, rfl, rfl, rfl⟩
